import Mathlib

/-!
Verification of the ARM-compatibility analysis engine
(`arm/src`: orchestrator, terraform / docker / dependency analyzers,
registry clients).  Python functions are shallowly embedded as Lean
definitions; Python dictionaries become structures whose optional keys
become `Option` fields; network requests become explicit oracle inputs;
the caught-exception branches of the Python code become explicit error
constructors of those oracle types.
-/

namespace Spec2Proof

/-! ### Python compatibility values

The Python code stores compatibility as one of the literals
`True`, `False`, `"partial"`, `"unknown"`, `"error"`. -/

inductive Compat where
  | ctrue
  | cfalse
  | cpart
  | cunknown
  | cerror
  deriving DecidableEq, Repr

/-! ### Generic list helpers shared by the embeddings -/

/-- Order-preserving de-duplication keeping first occurrences
(Python `list(dict.fromkeys(xs))`; also used where CPython builds
`list(set(xs))`, whose unspecified order we fix as first-occurrence
order). -/
def dedupFirstAux (seen : List String) : List String → List String
  | [] => []
  | a :: as =>
      if seen.contains a then dedupFirstAux seen as
      else a :: dedupFirstAux (seen ++ [a]) as

def dedupFirst (l : List String) : List String := dedupFirstAux [] l

/-- Insertion step of insertion sort with a Boolean comparison. -/
def insertLe {α : Type} (le : α → α → Bool) (a : α) : List α → List α
  | [] => [a]
  | b :: bs => if le a b then a :: b :: bs else b :: insertLe le a bs

/-- Insertion sort with a Boolean comparison (model of Python `sorted`). -/
def sortLe {α : Type} (le : α → α → Bool) (l : List α) : List α :=
  l.foldr (insertLe le) []

theorem insertLe_perm {α : Type} (le : α → α → Bool) (a : α) (l : List α) :
    List.Perm (insertLe le a l) (a :: l) := by
  induction l with
  | nil => simp [insertLe]
  | cons b bs ih =>
      simp only [insertLe]
      by_cases h : le a b = true
      · simp [h]
      · simp only [h]
        simp only [Bool.false_eq_true, if_false]
        exact (ih.cons b).trans (List.Perm.swap a b bs)

theorem sortLe_perm {α : Type} (le : α → α → Bool) (l : List α) :
    List.Perm (sortLe le l) l := by
  induction l with
  | nil => exact List.Perm.refl _
  | cons a as ih =>
      simp only [sortLe, List.foldr_cons]
      exact (insertLe_perm le a _).trans (ih.cons a)

theorem insertLe_pairwise {α : Type} (le : α → α → Bool)
    (htot : ∀ a b : α, le a b = true ∨ le b a = true)
    (htrans : ∀ a b c : α, le a b = true → le b c = true → le a c = true)
    (a : α) (l : List α) (hl : l.Pairwise (fun x y => le x y = true)) :
    (insertLe le a l).Pairwise (fun x y => le x y = true) := by
  induction l with
  | nil => simp [insertLe]
  | cons b bs ih =>
      rcases List.pairwise_cons.mp hl with ⟨hb, hbs⟩
      simp only [insertLe]
      by_cases h : le a b = true
      · simp only [h, if_true]
        refine List.pairwise_cons.mpr ⟨?_, hl⟩
        intro x hx
        rcases List.mem_cons.mp hx with hx | hx
        · exact hx ▸ h
        · exact htrans a b x h (hb x hx)
      · simp only [h, Bool.false_eq_true, if_false]
        refine List.pairwise_cons.mpr ⟨?_, ih hbs⟩
        intro x hx
        have hx' := (insertLe_perm le a bs).mem_iff.mp hx
        rcases List.mem_cons.mp hx' with hx' | hx'
        · rw [hx']
          rcases htot a b with h1 | h1
          · exact absurd h1 h
          · exact h1
        · exact hb x hx'

theorem sortLe_pairwise {α : Type} (le : α → α → Bool)
    (htot : ∀ a b : α, le a b = true ∨ le b a = true)
    (htrans : ∀ a b c : α, le a b = true → le b c = true → le a c = true)
    (l : List α) : (sortLe le l).Pairwise (fun x y => le x y = true) := by
  induction l with
  | nil => simp [sortLe]
  | cons a as ih =>
      simpa only [sortLe, List.foldr_cons] using
        insertLe_pairwise le htot htrans a _ ih

/-- Two sorted lists that are permutations of each other coincide, as long
as the comparison is antisymmetric on the elements that actually occur. -/
theorem sorted_perm_eq {α : Type} (le : α → α → Bool) :
    ∀ (l₁ l₂ : List α), List.Perm l₁ l₂ →
    l₁.Pairwise (fun x y => le x y = true) →
    l₂.Pairwise (fun x y => le x y = true) →
    (∀ a ∈ l₁, ∀ b ∈ l₁, le a b = true → le b a = true → a = b) →
    l₁ = l₂
  | [], [], _, _, _, _ => rfl
  | [], _ :: _, hp, _, _, _ => absurd hp.symm (by simp)
  | _ :: _, [], hp, _, _, _ => absurd hp (by simp)
  | a :: as, b :: bs, hp, h₁, h₂, hanti => by
      rcases List.pairwise_cons.mp h₁ with ⟨ha, has⟩
      rcases List.pairwise_cons.mp h₂ with ⟨hb, hbs⟩
      have hab : a = b := by
        by_cases hEq : a = b
        · exact hEq
        · have hbmem : b ∈ as := by
            have hm : b ∈ a :: as := hp.symm.subset (by simp)
            rcases List.mem_cons.mp hm with h | h
            · exact absurd h.symm hEq
            · exact h
          have hamem : a ∈ bs := by
            have hm : a ∈ b :: bs := hp.subset (by simp)
            rcases List.mem_cons.mp hm with h | h
            · exact absurd h hEq
            · exact h
          have h1 : le a b = true := ha b hbmem
          have h2 : le b a = true := hb a hamem
          exact absurd (hanti a (by simp) b (List.mem_cons_of_mem _ hbmem) h1 h2) hEq
      subst hab
      have htail : List.Perm as bs := hp.cons_inv
      have : as = bs :=
        sorted_perm_eq le as bs htail has hbs
          (fun x hx y hy => hanti x (List.mem_cons_of_mem _ hx) y (List.mem_cons_of_mem _ hy))
      rw [this]

theorem sortLe_eq_of_perm {α : Type} (le : α → α → Bool)
    (htot : ∀ a b : α, le a b = true ∨ le b a = true)
    (htrans : ∀ a b c : α, le a b = true → le b c = true → le a c = true)
    {l₁ l₂ : List α} (hp : List.Perm l₁ l₂)
    (hanti : ∀ a ∈ l₁, ∀ b ∈ l₁, le a b = true → le b a = true → a = b) :
    sortLe le l₁ = sortLe le l₂ := by
  refine sorted_perm_eq le _ _ ?_ (sortLe_pairwise le htot htrans l₁)
    (sortLe_pairwise le htot htrans l₂) ?_
  · exact (sortLe_perm le l₁).trans (hp.trans (sortLe_perm le l₂).symm)
  · intro a hamem b hbmem
    exact hanti a ((sortLe_perm le l₁).subset hamem) b ((sortLe_perm le l₁).subset hbmem)

/-- Lexicographic comparison of character lists by code point
(Python string `<=`, also the order `sorted` uses; self-contained so
that the kernel can evaluate it). -/
def charListLeB : List Char → List Char → Bool
  | [], _ => true
  | _ :: _, [] => false
  | a :: as, b :: bs =>
      if a.toNat = b.toNat then charListLeB as bs else a.toNat < b.toNat

/-- Boolean string comparison used for Python `sorted` on strings. -/
def strLeB (a b : String) : Bool := charListLeB a.toList b.toList

theorem char_toNat_inj {a b : Char} (h : a.toNat = b.toNat) : a = b := by
  rcases a with ⟨⟨⟨av, hav⟩⟩, ha⟩
  rcases b with ⟨⟨⟨bv, hbv⟩⟩, hb⟩
  simp only [Char.toNat, UInt32.toNat] at h
  subst h
  rfl

theorem charListLeB_nil_le (b : List Char) : charListLeB [] b = true := by
  cases b <;> rfl

theorem charListLeB_cons_nil (a : Char) (as : List Char) :
    charListLeB (a :: as) [] = false := rfl

theorem charListLeB_cons_cons (a b : Char) (as bs : List Char) :
    charListLeB (a :: as) (b :: bs)
      = if a.toNat = b.toNat then charListLeB as bs
        else decide (a.toNat < b.toNat) := rfl

theorem charListLeB_total : ∀ a b : List Char,
    charListLeB a b = true ∨ charListLeB b a = true
  | [], b => Or.inl (charListLeB_nil_le b)
  | _ :: _, [] => Or.inr (charListLeB_nil_le _)
  | a :: as, b :: bs => by
      rw [charListLeB_cons_cons, charListLeB_cons_cons]
      by_cases h : a.toNat = b.toNat
      · rcases charListLeB_total as bs with h1 | h1
        · exact Or.inl (by rw [if_pos h]; exact h1)
        · exact Or.inr (by rw [if_pos h.symm]; exact h1)
      · have h2 : ¬ b.toNat = a.toNat := fun hc => h hc.symm
        rw [if_neg h, if_neg h2]
        simp only [decide_eq_true_eq]
        omega

theorem charListLeB_trans : ∀ a b c : List Char,
    charListLeB a b = true → charListLeB b c = true → charListLeB a c = true
  | [], _, c, _, _ => charListLeB_nil_le c
  | _ :: _, [], _, h, _ => by rw [charListLeB_cons_nil] at h; exact absurd h (by simp)
  | _ :: _, _ :: _, [], _, h => by
      rw [charListLeB_cons_nil] at h; exact absurd h (by simp)
  | a :: as, b :: bs, c :: cs, h1, h2 => by
      rw [charListLeB_cons_cons] at h1 h2 ⊢
      by_cases hab : a.toNat = b.toNat
      · rw [if_pos hab] at h1
        by_cases hbc : b.toNat = c.toNat
        · rw [if_pos hbc] at h2
          rw [if_pos (hab.trans hbc)]
          exact charListLeB_trans as bs cs h1 h2
        · rw [if_neg hbc] at h2
          rw [if_neg (fun hc => hbc (hab ▸ hc)), hab]
          exact h2
      · rw [if_neg hab] at h1
        by_cases hbc : b.toNat = c.toNat
        · rw [if_neg (fun hc => hab (hbc ▸ hc)), ← hbc]
          exact h1
        · rw [if_neg hbc] at h2
          simp only [decide_eq_true_eq] at h1 h2
          have hac : ¬ a.toNat = c.toNat := by omega
          rw [if_neg hac]
          simp only [decide_eq_true_eq]
          omega

theorem charListLeB_antisymm : ∀ a b : List Char,
    charListLeB a b = true → charListLeB b a = true → a = b
  | [], [], _, _ => rfl
  | [], _ :: _, _, h => by rw [charListLeB_cons_nil] at h; exact absurd h (by simp)
  | _ :: _, [], h, _ => by rw [charListLeB_cons_nil] at h; exact absurd h (by simp)
  | a :: as, b :: bs, h1, h2 => by
      rw [charListLeB_cons_cons] at h1 h2
      by_cases hab : a.toNat = b.toNat
      · rw [if_pos hab] at h1
        rw [if_pos hab.symm] at h2
        rw [char_toNat_inj hab, charListLeB_antisymm as bs h1 h2]
      · rw [if_neg hab] at h1
        rw [if_neg (fun hc => hab hc.symm)] at h2
        simp only [decide_eq_true_eq] at h1 h2
        omega

theorem string_toList_inj {a b : String} (h : a.toList = b.toList) : a = b := by
  rcases a with ⟨da⟩
  rcases b with ⟨db⟩
  simp only [String.toList] at h
  rw [h]

theorem strLeB_total : ∀ a b : String, strLeB a b = true ∨ strLeB b a = true :=
  fun a b => charListLeB_total a.toList b.toList

theorem strLeB_trans : ∀ a b c : String,
    strLeB a b = true → strLeB b c = true → strLeB a c = true :=
  fun a b c h1 h2 => charListLeB_trans a.toList b.toList c.toList h1 h2

theorem strLeB_antisymm : ∀ a b : String,
    strLeB a b = true → strLeB b a = true → a = b :=
  fun a b h1 h2 => string_toList_inj (charListLeB_antisymm a.toList b.toList h1 h2)

/-- Python `sorted(list(set(xs)))` for string lists. -/
def pySortedSet (l : List String) : List String := sortLe strLeB l.dedup

theorem pySortedSet_eq_of_perm {l₁ l₂ : List String} (hp : List.Perm l₁ l₂) :
    pySortedSet l₁ = pySortedSet l₂ :=
  sortLe_eq_of_perm strLeB strLeB_total strLeB_trans hp.dedup
    (fun a _ b _ h1 h2 => strLeB_antisymm a b h1 h2)

theorem pySortedSet_eq_of_toFinset {l₁ l₂ : List String}
    (h : l₁.toFinset = l₂.toFinset) : pySortedSet l₁ = pySortedSet l₂ := by
  refine sortLe_eq_of_perm strLeB strLeB_total strLeB_trans ?_
    (fun a _ b _ h1 h2 => strLeB_antisymm a b h1 h2)
  exact List.toFinset_eq_iff_perm_dedup.mp h

/-! ### Character / string helpers for the regex embeddings -/

/-- Python regex `\s` character class (the whitespace characters the
embedded inputs can contain). -/
def isWs (c : Char) : Bool := c = ' ' ∨ c = '\t' ∨ c = '\n' ∨ c = '\r'

def skipWs : List Char → List Char
  | [] => []
  | c :: cs => if isWs c then skipWs cs else c :: cs

/-- Consumes `\s+`: at least one whitespace character. -/
def munchWs1 : List Char → Option (List Char)
  | [] => none
  | c :: cs => if isWs c then some (skipWs cs) else none

/-- Python `str.strip()`. -/
def pyStrip (s : String) : String :=
  String.mk ((skipWs s.toList).reverse |> skipWs |>.reverse)

/-- Python `str.lower()` (ASCII, which is all the embedded inputs use). -/
def pyLower (s : String) : String := String.mk (s.toList.map Char.toLower)

/-- Greedy `cls+` munch: longest nonempty prefix of characters satisfying
`cls`, with the rest; `none` when the first character already fails. -/
def munch1 (cls : Char → Bool) : List Char → Option (List Char × List Char)
  | [] => none
  | c :: cs =>
      if cls c then
        match munch1 cls cs with
        | some (tok, rest) => some (c :: tok, rest)
        | none => some ([c], cs)
      else none

/-- Match a literal string case-sensitively, returning the rest. -/
def matchLit : List Char → List Char → Option (List Char)
  | [], cs => some cs
  | _ :: _, [] => none
  | p :: ps, c :: cs => if c = p then matchLit ps cs else none

/-- Match a literal string case-insensitively (for `re.IGNORECASE`). -/
def matchLitCi : List Char → List Char → Option (List Char)
  | [], cs => some cs
  | _ :: _, [] => none
  | p :: ps, c :: cs => if c.toLower = p.toLower then matchLitCi ps cs else none

/-- All suffixes of a character list, longest first (search positions). -/
def suffixes : List Char → List (List Char)
  | [] => [[]]
  | c :: cs => (c :: cs) :: suffixes cs

/-- `re.search` on an unanchored pattern given as a predicate on the
suffix starting at the match position. -/
def searchAt (p : List Char → Bool) (cs : List Char) : Bool :=
  (suffixes cs).any p

/-- Substring containment (`needle in haystack` in Python). -/
def containsSub (needle : String) (s : String) : Bool :=
  searchAt (fun cs => (matchLit needle.toList cs).isSome) s.toList

/-- Python regex word character `\w` (ASCII part). -/
def isWordChar (c : Char) : Bool := c.isAlphanum ∨ c = '_'

/-- `\b<lit>\b` search: the literal occurs with no word character on
either side. -/
def searchWordBounded (lit : String) (s : String) : Bool :=
  let litL := lit.toList
  let rec go (prev : Option Char) (cs : List Char) : Bool :=
    match cs with
    | [] => false
    | c :: rest =>
        (match matchLit litL (c :: rest) with
         | some after =>
             (match prev with
              | some p => ¬ isWordChar p
              | none => true) &&
             (match after with
              | [] => true
              | a :: _ => ¬ isWordChar a)
         | none => false) ||
        go (some c) rest
  go none s.toList

/-- Python `str.startswith` / `str.endswith` and `sep.join`,
implemented over character lists so the kernel can evaluate them. -/
def strStartsWith (s pre : String) : Bool := (matchLit pre.toList s.toList).isSome

def strEndsWith (s suf : String) : Bool :=
  (matchLit suf.toList.reverse s.toList.reverse).isSome

def strDrop (s : String) (n : Nat) : String := String.mk (s.toList.drop n)

def strDropRight (s : String) (n : Nat) : String :=
  String.mk (s.toList.take (s.toList.length - n))

def strJoin (sep : String) : List String → String
  | [] => ""
  | [a] => a
  | a :: as => a ++ sep ++ strJoin sep as

def splitOnChar (sep : Char) : List Char → List (List Char)
  | [] => [[]]
  | c :: rest =>
      if c = sep then [] :: splitOnChar sep rest
      else
        match splitOnChar sep rest with
        | h :: t => (c :: h) :: t
        | [] => [[c]]


/-! ### Terraform analyzer (`analyzers/terraform_analyzer.py`) -/

/-- The quote class of the instance-type regex (double or single quote). -/
def isQuote (c : Char) : Bool := c = '"' ∨ c.toNat = 39

theorem matchLit_length : ∀ (p cs r : List Char),
    matchLit p cs = some r → r.length + p.length = cs.length
  | [], cs, r, h => by
      simp only [matchLit, Option.some.injEq] at h
      subst h; simp
  | _ :: _, [], r, h => by simp [matchLit] at h
  | p :: ps, c :: cs, r, h => by
      simp only [matchLit] at h
      by_cases hc : c = p
      · simp only [hc, if_true] at h
        have := matchLit_length ps cs r h
        simp only [List.length_cons]
        omega
      · simp [hc] at h

theorem skipWs_length : ∀ cs : List Char, (skipWs cs).length ≤ cs.length
  | [] => by simp [skipWs]
  | c :: cs => by
      simp only [skipWs]
      by_cases hc : isWs c = true
      · simp only [hc, if_true]
        exact Nat.le_succ_of_le (skipWs_length cs)
      · simp [hc]

theorem munch1_length : ∀ (cls : Char → Bool) (cs tok rest : List Char),
    munch1 cls cs = some (tok, rest) → rest.length < cs.length
  | _, [], _, _, h => by simp [munch1] at h
  | cls, c :: cs, tok, rest, h => by
      simp only [munch1] at h
      by_cases hc : cls c = true
      · simp only [hc, if_true] at h
        cases hm : munch1 cls cs with
        | some p =>
            rcases p with ⟨t, r⟩
            rw [hm] at h
            simp only [Option.some.injEq, Prod.mk.injEq] at h
            rcases h with ⟨_, hr⟩
            subst hr
            have := munch1_length cls cs t r hm
            simp only [List.length_cons]
            omega
        | none =>
            rw [hm] at h
            simp only [Option.some.injEq, Prod.mk.injEq] at h
            rcases h with ⟨_, hr⟩
            subst hr
            simp
      · simp [hc] at h

/-- One attempted match of the pattern
`instance_type\s*=\s*[quote]([^quote]+)[quote]` at the head of `cs`,
returning the captured group and the rest after the match. -/
def tfMatchInstanceTypeAt (cs : List Char) : Option (String × List Char) :=
  match matchLit "instance_type".toList cs with
  | none => none
  | some r1 =>
      match skipWs r1 with
      | '=' :: r3 =>
          match skipWs r3 with
          | q :: r5 =>
              if isQuote q then
                match munch1 (fun c => ¬ isQuote c) r5 with
                | some (tok, q2 :: rest) =>
                    if isQuote q2 then some (String.mk tok, rest) else none
                | _ => none
              else none
          | [] => none
      | _ => none

theorem tfMatchInstanceTypeAt_length {cs : List Char} {tok : String} {rest : List Char}
    (h : tfMatchInstanceTypeAt cs = some (tok, rest)) : rest.length < cs.length := by
  unfold tfMatchInstanceTypeAt at h
  split at h
  · exact absurd h (by simp)
  · rename_i r1 h1
    have hr1 : r1.length + 13 = cs.length := matchLit_length _ _ _ h1
    split at h
    · rename_i r3 h2
      have hr2 : r3.length < r1.length := by
        have hle := skipWs_length r1
        rw [h2] at hle
        simp only [List.length_cons] at hle
        omega
      split at h
      · rename_i q r5 h3
        have hr3 : r5.length < r3.length := by
          have hle := skipWs_length r3
          rw [h3] at hle
          simp only [List.length_cons] at hle
          omega
        split at h
        · split at h
          · rename_i t q2 r6 h4
            have hr4 : (q2 :: r6).length < r5.length :=
              munch1_length _ _ _ _ h4
            split at h
            · simp only [Option.some.injEq, Prod.mk.injEq] at h
              rcases h with ⟨_, hr⟩
              subst hr
              simp only [List.length_cons] at hr4
              omega
            · exact absurd h (by simp)
          · exact absurd h (by simp)
        · exact absurd h (by simp)
      · exact absurd h (by simp)
    · exact absurd h (by simp)

/-- `re.findall` of the instance-type pattern, fuelled so that the
recursion is structural (each step either advances one character or
consumes a whole match, which `tfMatchInstanceTypeAt_length` shows is
at least one character, so `cs.length` fuel is always enough —
`tfFindGo_fuel_irrelevant` below makes that formal). -/
def tfFindGo : Nat → List Char → List String
  | 0, _ => []
  | _, [] => []
  | fuel + 1, c :: rest =>
      match tfMatchInstanceTypeAt (c :: rest) with
      | some (tok, after) => tok :: tfFindGo fuel after
      | none => tfFindGo fuel rest

/-- `re.findall` of the instance-type pattern over the file content
(leftmost matches, non-overlapping). -/
def tfFindInstanceTypes (cs : List Char) : List String := tfFindGo cs.length cs

theorem tfFindGo_fuel_irrelevant : ∀ (fuel₁ fuel₂ : Nat) (cs : List Char),
    cs.length ≤ fuel₁ → cs.length ≤ fuel₂ → tfFindGo fuel₁ cs = tfFindGo fuel₂ cs
  | f1, f2, [], _, _ => by
      cases f1 <;> cases f2 <;> simp [tfFindGo]
  | 0, f2, c :: rest, h1, _ => by simp at h1
  | f1 + 1, 0, c :: rest, _, h2 => by simp at h2
  | f1 + 1, f2 + 1, c :: rest, h1, h2 => by
      simp only [tfFindGo]
      cases hm : tfMatchInstanceTypeAt (c :: rest) with
      | some p =>
          rcases p with ⟨tok, after⟩
          have hlen := tfMatchInstanceTypeAt_length hm
          simp only [List.length_cons] at h1 h2 hlen
          have he := tfFindGo_fuel_irrelevant f1 f2 after (by omega) (by omega)
          simp only [he]
      | none =>
          simp only [List.length_cons] at h1 h2
          have he := tfFindGo_fuel_irrelevant f1 f2 rest (by omega) (by omega)
          simp only [he]


/-- Output dictionary of `TerraformAnalyzer.analyze`. -/
structure TfAnalysis where
  instance_types : List String := []
  other_indicators : List String := []
  deriving DecidableEq, Repr

/-- Architecture indicator keywords scanned by `TerraformAnalyzer.analyze`. -/
def tfArchIndicators : List String :=
  ["architecture", "amd64", "x86_64", "arm64", "graviton"]

/-- `TerraformAnalyzer.analyze`: extract `instance_type = "..."` values
(de-duplicated, Python builds `list(set(matches))`) and the architecture
indicator keywords contained in the lower-cased content. -/
def tfAnalyze (file_content : String) : TfAnalysis :=
  { instance_types := dedupFirst (tfFindInstanceTypes file_content.toList),
    other_indicators :=
      tfArchIndicators.filter (fun ind => containsSub ind (pyLower file_content)) }

/-- Result dictionary of `TerraformAnalyzer._is_instance_type_arm_compatible`
(absent keys are `none`). -/
structure TfCompatRes where
  compatible : Compat
  already_arm : Option Bool := none
  suggestion : Option String := none
  current : Option String := none
  reason : Option String := none
  deriving DecidableEq, Repr

def tfArmFamilies : List String :=
  ["a1", "t4g", "m6g", "m7g", "c6g", "c7g", "r6g", "r7g", "x2gd", "im4gn", "gr6"]

def tfX86OnlyFamilies : List String :=
  ["mac", "f1", "p2", "p3", "g3", "g4", "g5", "inf", "dl1", "vt1", "trn1"]

/-- The x86-to-Graviton prefix mapping, in source order (Python dict
insertion order; the loop takes the first matching prefix). -/
def tfInstanceMapping : List (String × String) :=
  [("t3.", "t4g."), ("t3a.", "t4g."), ("t2.", "t4g."),
   ("m6i.", "m7g."), ("m6a.", "m7g."),
   ("m5.", "m6g."), ("m5a.", "m6g."), ("m5n.", "m6gn."), ("m5zn.", "m6g."),
   ("m4.", "m6g."),
   ("c6i.", "c7g."), ("c6a.", "c7g."),
   ("c5.", "c6g."), ("c5a.", "c6g."), ("c5n.", "c6gn."), ("c4.", "c6g."),
   ("r6i.", "r7g."), ("r6a.", "r7g."),
   ("r5.", "r6g."), ("r5a.", "r6g."), ("r5b.", "r6g."), ("r5n.", "r6gn."),
   ("r4.", "r6g."),
   ("x1e.", "x2gd."), ("x1.", "x2gd."),
   ("z1d.", "m6g."),
   ("i3.", "im4gn."), ("i3en.", "i4g."),
   ("d2.", "i4g."), ("d3.", "i4g."), ("d3en.", "i4g.")]

/-- `TerraformAnalyzer._is_instance_type_arm_compatible`. -/
def tfIsInstanceTypeArmCompatible (instance_type : String) : TfCompatRes :=
  let itl := pyLower instance_type
  if tfArmFamilies.any (fun f => strStartsWith itl (f ++ ".") || itl == f) then
    { compatible := .ctrue, already_arm := some true }
  else if tfX86OnlyFamilies.any (fun f => strStartsWith itl (f ++ ".") || itl == f) then
    { compatible := .cfalse,
      reason := some "Instance family has no direct ARM equivalent or is specialized (e.g., GPU, FPGA, Trainium)." }
  else
    match tfInstanceMapping.find? (fun p => strStartsWith itl p.1) with
    | some (x86p, armp) =>
        { compatible := .ctrue, already_arm := some false,
          suggestion := some (armp ++ strDrop instance_type x86p.toList.length),
          current := some instance_type }
    | none =>
        { compatible := .cunknown, current := some instance_type,
          reason := some "Instance type family not explicitly mapped or recognized. Requires manual verification." }

/-- Per-file record handed to `TerraformAnalyzer.aggregate_results`.  The
orchestrator builds it as a spread of `analyze`: the keys of the
`analyze` output land at TOP level next to `file`, while
`aggregate_results` reads `output.get("analysis", {})`, a key nobody
writes; the `analysis` field models that separate key. -/
structure TfRecord where
  file : String := "unknown_file"
  analysis : Option TfAnalysis := none
  instance_types : List String := []
  other_indicators : List String := []
  deriving DecidableEq, Repr

/-- `output.get("analysis", {}).get("instance_types", [])`. -/
def tfTypesOf (o : TfRecord) : List String :=
  match o.analysis with
  | some a => a.instance_types
  | none => []

/-- Compatibility dictionary for one instance type after
`aggregate_results` adds the `file` and `instance_type` keys. -/
structure TfResultItem where
  res : TfCompatRes
  file : String
  instance_type : String
  deriving DecidableEq, Repr

/-- Python truthiness of an optional string value. -/
def optStrTruthy : Option String → Bool
  | some s => s != ""
  | none => false

/-- The reasoning message and the recommendations produced for one newly
seen instance type inside `TerraformAnalyzer.aggregate_results`. -/
def tfProcessOne (file_path instance_type : String) :
    TfResultItem × List String × List String :=
  let c := tfIsInstanceTypeArmCompatible instance_type
  let item : TfResultItem := ⟨c, file_path, instance_type⟩
  if c.already_arm.getD false then
    (item, [],
      ["Instance type `" ++ instance_type ++ "` is already ARM-based and fully compatible."])
  else if c.compatible == .ctrue && optStrTruthy c.suggestion then
    let sug := c.suggestion.getD ""
    (item,
      ["Replace `" ++ instance_type ++ "` with `" ++ sug ++ "` in `" ++ file_path ++ "`"],
      ["Instance type `" ++ instance_type ++ "` (found in `" ++ file_path
        ++ "`) can be replaced with ARM equivalent `" ++ sug ++ "`."])
  else if c.compatible == .cfalse then
    (item,
      ["Review or replace incompatible instance type `" ++ instance_type
        ++ "` in `" ++ file_path ++ "`."],
      ["Instance type `" ++ instance_type ++ "` (found in `" ++ file_path
        ++ "`) has no direct ARM equivalent or is incompatible: "
        ++ c.reason.getD "Unknown reason" ++ "."])
  else
    (item,
      ["Manually verify ARM compatibility for instance type `" ++ instance_type
        ++ "` in `" ++ file_path ++ "`."],
      ["Instance type `" ++ instance_type ++ "` (found in `" ++ file_path
        ++ "`) requires manual verification for ARM compatibility."])

/-- Loop state of `TerraformAnalyzer.aggregate_results`. -/
structure TfAggState where
  processed : List String := []
  results : List TfResultItem := []
  recs : List String := []
  reasoning : List String := []
  deriving DecidableEq, Repr

/-- One instance type inside the per-file loop (skipped when already in
`processed_instance_types`). -/
def tfStepType (file_path : String) (st : TfAggState) (instance_type : String) :
    TfAggState :=
  if st.processed.contains instance_type then st
  else
    let (item, recs, reasons) := tfProcessOne file_path instance_type
    { processed := st.processed ++ [instance_type],
      results := st.results ++ [item],
      recs := st.recs ++ recs,
      reasoning := st.reasoning ++ reasons }

/-- One per-file output inside `aggregate_results`. -/
def tfStepOutput (st : TfAggState) (o : TfRecord) : TfAggState :=
  (tfTypesOf o).foldl (tfStepType o.file) st

/-- Aggregated result of `TerraformAnalyzer.aggregate_results`. -/
structure TfAgg where
  results : List TfResultItem
  recommendations : List String
  reasoning : List String
  deriving DecidableEq, Repr

/-- `TerraformAnalyzer.aggregate_results`. -/
def tfAggregate (analysis_outputs : List TfRecord) : TfAgg :=
  let st := analysis_outputs.foldl tfStepOutput {}
  { results := st.results,
    recommendations := pySortedSet st.recs,
    reasoning := st.reasoning }


/-! ### Docker analyzer (`analyzers/docker_analyzer.py`): per-file analysis -/

/-- Python `str.splitlines()` for newline-separated content (drops one
trailing empty piece, as splitlines does for a trailing newline). -/
def pySplitlines (s : String) : List String :=
  let parts := (splitOnChar '\n' s.toList).map String.mk
  match parts.reverse with
  | "" :: rest => rest.reverse
  | _ => parts

/-- One line of the backslash-continuation joining loop of
`DockerAnalyzer.analyze` (state: lines emitted so far, pending line). -/
def dockerJoinStep (acc : List String × String) (line : String) : List String × String :=
  let (joined, current) := acc
  let ls := pyStrip line
  if ls == "" || strStartsWith ls "#" then
    if current != "" then (joined ++ [current, line], "")
    else (joined ++ [line], "")
  else
    let cont := current != "" && strEndsWith current "\\"
    let current1 := if cont then strDropRight current 1 ++ " " ++ ls else ls
    let joined1 :=
      if cont then joined
      else if current != "" then joined ++ [current] else joined
    if strEndsWith ls "\\" then (joined1, current1)
    else (joined1 ++ [current1], "")

/-- The line-joining preprocessing of `DockerAnalyzer.analyze`. -/
def dockerJoinLines (file_content : String) : List String :=
  let (joined, current) := (pySplitlines file_content).foldl dockerJoinStep ([], "")
  if current != "" then joined ++ [current] else joined

/-- Character class `[\w.:/@-]` of the FROM regex. -/
def imageNameChar (c : Char) : Bool :=
  isWordChar c || c = '.' || c = ':' || c = '/' || c = '@' || c = '-'

/-- `\S` of the FROM regex. -/
def nonWsChar (c : Char) : Bool := !(isWs c)

def allWs (cs : List Char) : Bool := cs.all isWs

/-- Ordered alternation of case-insensitive literals. -/
def matchCiAny (ks : List String) (cs : List Char) : Option (List Char) :=
  match ks with
  | [] => none
  | k :: rest =>
      match matchLitCi k.toList cs with
      | some r => some r
      | none => matchCiAny rest cs

/-- Tail of the FROM regex after the optional platform group:
`([\w.:/@-]+)(?:\s+AS\s+\S+)?\s*$`. -/
def dockerFromTail (plat : Option String) (r : List Char) :
    Option (Option String × String) :=
  match munch1 imageNameChar r with
  | none => none
  | some (img, r2) =>
      if allWs r2 then some (plat, String.mk img)
      else
        match munchWs1 r2 with
        | none => none
        | some r3 =>
            match matchLitCi "AS".toList r3 with
            | none => none
            | some r4 =>
                match munchWs1 r4 with
                | none => none
                | some r5 =>
                    match munch1 nonWsChar r5 with
                    | none => none
                    | some (_, r6) =>
                        if allWs r6 then some (plat, String.mk img) else none

/-- Match of one joined line against the FROM regex
`^\s*FROM\s+(?:--platform=(\S+)\s+)?([\w.:/@-]+)(?:\s+AS\s+\S+)?\s*$`
(IGNORECASE, MULTILINE): returns the optional platform capture and the
image name. -/
def dockerFromMatch (line : String) : Option (Option String × String) :=
  let cs := skipWs line.toList
  match matchLitCi "FROM".toList cs with
  | none => none
  | some r1 =>
      match munchWs1 r1 with
      | none => none
      | some r2 =>
          let tryPlat : Option (Option String × List Char) :=
            match matchLitCi "--platform=".toList r2 with
            | none => none
            | some r3 =>
                match munch1 nonWsChar r3 with
                | none => none
                | some (plat, r4) =>
                    match munchWs1 r4 with
                    | none => none
                    | some r5 => some (some (String.mk plat), r5)
          match tryPlat with
          | some (p, r) =>
              match dockerFromTail p r with
              | some res => some res
              | none => dockerFromTail none r2
          | none => dockerFromTail none r2

/-- `X86_ARCHS + ARM64_ARCHS + [...]` keyword list of
`DockerAnalyzer.analyze`, in source order. -/
def dockerArchKeywords : List String :=
  ["amd64", "x86_64", "arm64", "aarch64", "graviton", "--platform",
   "TARGETARCH", "TARGETPLATFORM"]

/-- Python `str.isalnum()` (ASCII inputs). -/
def pyIsAlnum (s : String) : Bool := s != "" && s.toList.all Char.isAlphanum

/-- Case-insensitive substring search (`re.IGNORECASE`). -/
def containsSubCi (needle : String) (s : String) : Bool :=
  searchAt (fun cs => (matchLitCi needle.toList cs).isSome) s.toList

/-- One keyword test of the `analyze` loop: `\b<kw>\b` for alphanumeric
keywords, plain substring otherwise, searched in the lower-cased line
(so the upper-case TARGETARCH/TARGETPLATFORM keywords never hit here,
exactly as in the source). -/
def dockerKeywordHit (line_lower : String) (kw : String) : Bool :=
  if pyIsAlnum kw then searchWordBounded kw line_lower
  else containsSub kw line_lower

/-- `^\s*(FROM|RUN|ARG|ENV|COPY|ADD)\s+` (IGNORECASE, anchored). -/
def dockerCommandMatch (line : String) : Bool :=
  let cs := skipWs line.toList
  ["FROM", "RUN", "ARG", "ENV", "COPY", "ADD"].any (fun k =>
    match matchLitCi k.toList cs with
    | some r => (munchWs1 r).isSome
    | none => false)

/-- `dpkg --add-architecture\s+(amd64|x86_64)` (IGNORECASE, search). -/
def dockerPat1 (line : String) : Bool :=
  searchAt (fun cs =>
    match matchLitCi "dpkg --add-architecture".toList cs with
    | none => false
    | some r =>
        match munchWs1 r with
        | none => false
        | some r2 => (matchCiAny ["amd64", "x86_64"] r2).isSome)
    line.toList

def dockerDlExts : List String := ["deb", "rpm", "tar.gz", "zip", "bin"]

/-- `(wget|curl)\s+.*\/(.*(amd64|x86_64).*\.(deb|rpm|tar\.gz|zip|bin))`
(IGNORECASE, search). -/
def dockerPat2 (line : String) : Bool :=
  searchAt (fun cs =>
    match matchCiAny ["wget", "curl"] cs with
    | none => false
    | some r =>
        match munchWs1 r with
        | none => false
        | some r2 =>
            searchAt (fun ds =>
              match ds with
              | '/' :: r3 =>
                  searchAt (fun es =>
                    match matchCiAny ["amd64", "x86_64"] es with
                    | none => false
                    | some r4 =>
                        searchAt (fun fs =>
                          match fs with
                          | '.' :: r5 =>
                              dockerDlExts.any (fun e =>
                                (matchLitCi e.toList r5).isSome)
                          | _ => false) r4) r3
              | _ => false) r2)
    line.toList

/-- `(COPY|ADD)\s+.*\.(so|a)(\s+|$)` (IGNORECASE, search). -/
def dockerPat3 (line : String) : Bool :=
  searchAt (fun cs =>
    match matchCiAny ["COPY", "ADD"] cs with
    | none => false
    | some r =>
        match munchWs1 r with
        | none => false
        | some r2 =>
            searchAt (fun ds =>
              match ds with
              | '.' :: r3 =>
                  ["so", "a"].any (fun e =>
                    match matchLitCi e.toList r3 with
                    | some [] => true
                    | some (c :: _) => isWs c
                    | none => false)
              | _ => false) r2)
    line.toList

/-- `(COPY|ADD)\s+.*(amd64|x86_64)` (IGNORECASE, search). -/
def dockerPat4 (line : String) : Bool :=
  searchAt (fun cs =>
    match matchCiAny ["COPY", "ADD"] cs with
    | none => false
    | some r =>
        match munchWs1 r with
        | none => false
        | some r2 =>
            ["amd64", "x86_64"].any (fun k => containsSubCi k (String.mk r2)))
    line.toList

/-- Does one joined line land in `arch_lines_found`? -/
def dockerLineHit (line : String) : Bool :=
  let ls := pyStrip line
  if ls == "" || strStartsWith ls "#" then false
  else
    let ll := pyLower ls
    if dockerCommandMatch ls && dockerArchKeywords.any (dockerKeywordHit ll) then
      true
    else dockerPat1 ls || dockerPat2 ls || dockerPat3 ls || dockerPat4 ls

/-- One `base_images_info` entry. -/
structure BaseImageInfo where
  name : String
  platform_used : Option String := none
  line : String
  deriving DecidableEq, Repr

/-- Output dictionary of `DockerAnalyzer.analyze`. -/
structure DockerFileOutput where
  file : String := "unknown_file"
  base_images_info : List BaseImageInfo := []
  arch_specific_lines : List String := []
  deriving DecidableEq, Repr

/-- Body of the `try` block of `DockerAnalyzer.analyze`. -/
def dockerAnalyzeCore (file_content file_path : String) : DockerFileOutput :=
  let joined := dockerJoinLines file_content
  let imgs := joined.filterMap (fun line =>
    match dockerFromMatch line with
    | some (plat, name) =>
        if strStartsWith name "$\x7b" then none
        else some { name := name, platform_used := plat, line := pyStrip line }
    | none => none)
  let archLines := (joined.filter dockerLineHit).map pyStrip
  { file := file_path, base_images_info := imgs,
    arch_specific_lines := pySortedSet archLines }

/-- `DockerAnalyzer.analyze`.  The whole body sits in a `try/except`; the
`err` input makes the caught-exception branch explicit: on an internal
error the method returns an empty base-image list and the sentinel entry
`ERROR parsing file`. -/
def dockerAnalyze (err : Option String) (file_content file_path : String) :
    DockerFileOutput :=
  match err with
  | some _ =>
      { file := file_path, base_images_info := [],
        arch_specific_lines := ["ERROR parsing file"] }
  | none => dockerAnalyzeCore file_content file_path


/-! ### Docker registry client (`_parse_image_name`,
`_check_image_compatibility_via_manifest`) -/

def pyUpper (s : String) : String := String.mk (s.toList.map Char.toUpper)

def strContainsChar (c : Char) (s : String) : Bool := s.toList.contains c

/-- Python `s.split(sep, 1)` for a character separator (`none` when the
separator does not occur). -/
def pySplitOnce (sep : Char) (s : String) : Option (String × String) :=
  let cs := s.toList
  match cs.findIdx? (fun c => c = sep) with
  | some i => some (String.mk (cs.take i), String.mk (cs.drop (i + 1)))
  | none => none

/-- Python `s.rsplit(sep, 1)` for a character separator. -/
def pyRSplitOnce (sep : Char) (s : String) : Option (String × String) :=
  let cs := s.toList
  match cs.reverse.findIdx? (fun c => c = sep) with
  | some j =>
      let i := cs.length - 1 - j
      some (String.mk (cs.take i), String.mk (cs.drop (i + 1)))
  | none => none

def DOCKER_HUB_REGISTRY : String := "registry-1.docker.io"

/-- `DockerAnalyzer._parse_image_name` → (registry, repository,
tag-or-digest).  The three `:`-branches of the source all compute
`repo_part.rsplit(":", 1)`, so they are folded into one here. -/
def dockerParseImageName (image_name : String) : String × String × String :=
  if pyLower image_name == "scratch" then ("scratch", "scratch", "")
  else
    let rp :=
      if strContainsChar '/' image_name then
        match pySplitOnce '/' image_name with
        | some (p0, p1) =>
            if strContainsChar '.' p0 || strContainsChar ':' p0 || p0 == "localhost"
            then (p0, p1)
            else (DOCKER_HUB_REGISTRY, image_name)
        | none => (DOCKER_HUB_REGISTRY, image_name)
      else (DOCKER_HUB_REGISTRY, image_name)
    let registry := rp.1
    let repo_part := rp.2
    let rt :=
      if strContainsChar '@' repo_part then
        match pySplitOnce '@' repo_part with
        | some (rn, t) => (rn, "@" ++ t)
        | none => (repo_part, "latest")
      else if strContainsChar ':' repo_part then
        match pyRSplitOnce ':' repo_part with
        | some (rb, mt) => (rb, mt)
        | none => (repo_part, "latest")
      else (repo_part, "latest")
    let repo_name :=
      if registry == DOCKER_HUB_REGISTRY && !(strContainsChar '/' rt.1)
      then "library/" ++ rt.1 else rt.1
    (registry, repo_name, rt.2)

def DOCKER_MANIFEST_V2_HEADER : String :=
  "application/vnd.docker.distribution.manifest.v2+json"
def DOCKER_MANIFEST_LIST_V2_HEADER : String :=
  "application/vnd.docker.distribution.manifest.list.v2+json"
def OCI_MANIFEST_V1_HEADER : String := "application/vnd.oci.image.manifest.v1+json"
def OCI_INDEX_V1_HEADER : String := "application/vnd.oci.image.index.v1+json"
def ARM64_ARCHS : List String := ["arm64", "aarch64"]

/-- `platform` object of one manifest-list entry (`.get` defaults). -/
structure MPlatform where
  architecture : String := ""
  os : String := ""
  deriving DecidableEq, Repr

structure MEntry where
  platform : Option MPlatform := none
  deriving DecidableEq, Repr

/-- The JSON body of a manifest response (only the keys the client
reads). -/
structure MBody where
  manifests : Option (List MEntry) := none
  configDigest : Option String := none
  architecture : Option String := none
  deriving DecidableEq, Repr

/-- Outcome of the config-blob request (its `try/except` made explicit). -/
inductive CResp where
  | ok (architecture os : String)
  | fail (msg : String)
  deriving DecidableEq, Repr

/-- Outcome of the manifest request: the success case and the three
exception classes the client catches (`HTTPError`, other
`RequestException`, anything else). -/
inductive MResp where
  | ok (contentType : String) (body : MBody)
  | httpError (status : Nat) (msg : String)
  | netError (msg : String)
  | exn (msg : String)
  deriving DecidableEq, Repr

/-- The network interactions one manifest check can perform. -/
structure RegistryOracle where
  token : Option String := none
  manifest : MResp
  config : CResp := .fail ""
  deriving Repr

/-- Result dictionary of `_check_image_compatibility_via_manifest`
(`details` is kept as its `architectures` list). -/
structure ManifestCheckResult where
  compatible : Compat
  reason : String
  architectures : List String := []
  checked_type : Option String := none
  deriving DecidableEq, Repr

/-- The cache-key normalization at the top of
`_check_image_compatibility_via_manifest` (implicit `:latest`). -/
def dockerManifestCacheKey (image_name_full : String) : String :=
  if !(strContainsChar ':' image_name_full) && !(strContainsChar '@' image_name_full)
     && image_name_full != "scratch"
  then image_name_full ++ ":latest" else image_name_full

/-- The content-type dispatch and architecture extraction on a manifest
response body, plus the final compatibility decision. -/
def dockerManifestDecide (content_type_raw : String) (body : MBody)
    (config : CResp) : ManifestCheckResult :=
  let content_type := pyLower content_type_raw
  let st :
      String × Option String × List String × Bool :=
    if strStartsWith content_type DOCKER_MANIFEST_LIST_V2_HEADER
        || strStartsWith content_type OCI_INDEX_V1_HEADER then
      let manifests := body.manifests.getD []
      if manifests == [] then
        ("Manifest list/index is empty.", some "manifest_list/index", [], false)
      else
        let step := fun (acc : List String × Bool) (entry : MEntry) =>
          let platform := entry.platform.getD {}
          let arch := pyLower platform.architecture
          let os := pyLower platform.os
          let archs := if arch != "" && os != "" then acc.1 ++ [os ++ "/" ++ arch] else acc.1
          let arm := acc.2 || (ARM64_ARCHS.contains arch && os == "linux")
          (archs, arm)
        let r := manifests.foldl step ([], false)
        ("Check not performed yet.", some "manifest_list/index", r.1, r.2)
    else if strStartsWith content_type DOCKER_MANIFEST_V2_HEADER
        || strStartsWith content_type OCI_MANIFEST_V1_HEADER then
      let fallbackTop : List String :=
        let arch := pyLower (body.architecture.getD "")
        if arch != "" then ["unknown/" ++ arch] else []
      let r :=
        match body.configDigest with
        | some d =>
            if d != "" then
              match config with
              | .ok carch cos =>
                  let arch := pyLower carch
                  let os := pyLower cos
                  let archs := if arch != "" && os != "" then [os ++ "/" ++ arch] else []
                  (archs, ARM64_ARCHS.contains arch && os == "linux")
              | .fail _ => (fallbackTop, false)
            else (fallbackTop, false)
        | none => (fallbackTop, false)
      if r.1 == [] then
        ("Single manifest architecture could not be determined (missing config digest and architecture field).",
          some "manifest", r.1, r.2)
      else ("Check not performed yet.", some "manifest", r.1, r.2)
    else
      ("Unsupported manifest Content-Type: " ++ content_type, none, [], false)
  let reason0 := st.1
  let checked := st.2.1
  let archs := st.2.2.1
  let is_arm64 := st.2.2.2
  if is_arm64 then
    { compatible := .ctrue, reason := "Image manifest supports linux/arm64.",
      architectures := pySortedSet archs, checked_type := checked }
  else if archs != [] then
    { compatible := .cfalse,
      reason := "Image manifest does not list linux/arm64 support. Found: "
        ++ strJoin ", " (pySortedSet archs),
      architectures := pySortedSet archs, checked_type := checked }
  else
    { compatible := .cunknown,
      reason :=
        if reason0 == "Check not performed yet." then
          "Could not determine architecture support from manifest."
        else reason0,
      architectures := pySortedSet archs, checked_type := checked }

/-- `DockerAnalyzer._check_image_compatibility_via_manifest` (the cache
layer is process state outside this per-image computation). -/
def dockerCheckManifest (oracle : RegistryOracle) (image_name_full : String) :
    ManifestCheckResult :=
  let cache_key := dockerManifestCacheKey image_name_full
  if cache_key == "scratch:latest" || cache_key == "scratch" then
    { compatible := .ctrue,
      reason := "Base image is \x27scratch\x27, which is inherently multi-arch.",
      architectures := ["multiple"], checked_type := some "special" }
  else
    let parsed := dockerParseImageName cache_key
    let registry := parsed.1
    if registry != DOCKER_HUB_REGISTRY && registry != "scratch"
        && strEndsWith registry "amazonaws.com" then
      { compatible := .cunknown,
        reason := "ECR images require AWS credentials. Cannot check manifest without proper IAM configuration.",
        architectures := [], checked_type := some "limited_support" }
    else
      match oracle.manifest with
      | .ok content_type body => dockerManifestDecide content_type body oracle.config
      | .httpError status msg =>
          { compatible := .cunknown,
            reason :=
              if status == 401 then
                "Authentication error accessing manifest. Check credentials or image visibility."
              else if status == 403 then
                "Permission denied accessing manifest. Check repository permissions."
              else if status == 404 then
                "Image manifest not found (404). Check image name, tag, and registry."
              else if status == 429 then
                "API rate limit hit checking manifest. Try again later."
              else "HTTP error " ++ toString status ++ " checking manifest: " ++ msg,
            architectures := [], checked_type := some "error" }
      | .netError msg =>
          { compatible := .cunknown,
            reason := "Network error checking manifest: " ++ msg,
            architectures := [], checked_type := some "error" }
      | .exn msg =>
          { compatible := .cunknown,
            reason := "Unexpected error checking manifest: " ++ msg,
            architectures := [], checked_type := some "error" }


/-! ### Docker analyzer aggregation (`DockerAnalyzer.aggregate_results`) -/

/-- Python `set.add` modelled on an insertion-ordered list. -/
def setAdd (l : List String) (x : String) : List String :=
  if l.contains x then l else l ++ [x]

/-- The implicit-`latest` key normalization of aggregation pass 1
(textually the same rule as the manifest cache key). -/
def dockerDictKey (img_name : String) : String :=
  if !(strContainsChar ':' img_name) && !(strContainsChar '@' img_name)
     && img_name != "scratch"
  then img_name ++ ":latest" else img_name

/-- Values of `images_data`: the `files` and `platforms_used` sets. -/
structure ImgData where
  files : List String := []
  platforms_used : List String := []
  deriving DecidableEq, Repr

/-- Record one base-image occurrence in `images_data` (insertion-ordered
association list standing for the Python dict). -/
def imgUpdate (m : List (String × ImgData)) (key file : String)
    (plat : Option String) : List (String × ImgData) :=
  match m with
  | [] =>
      [(key,
        { files := [file],
          platforms_used :=
            match plat with
            | some p => if p != "" then [pyLower p] else []
            | none => [] })]
  | (k, d) :: rest =>
      if k == key then
        (k,
          { files := setAdd d.files file,
            platforms_used :=
              match plat with
              | some p => if p != "" then setAdd d.platforms_used (pyLower p)
                          else d.platforms_used
              | none => d.platforms_used }) :: rest
      else (k, d) :: imgUpdate rest key file plat

/-- Aggregation pass 1, base images of one per-file output. -/
def dockerCollectImagesStep (m : List (String × ImgData)) (o : DockerFileOutput) :
    List (String × ImgData) :=
  o.base_images_info.foldl
    (fun m img =>
      if img.name == "" then m
      else imgUpdate m (dockerDictKey img.name) o.file img.platform_used)
    m

def dockerCollectImages (outputs : List DockerFileOutput) :
    List (String × ImgData) :=
  outputs.foldl dockerCollectImagesStep []

/-- Record one arch-specific line in `all_arch_specific_lines`
(line → files seen so far, in encounter order). -/
def archUpdate (m : List (String × List String)) (line file : String) :
    List (String × List String) :=
  match m with
  | [] => [(line, [file])]
  | (k, fs) :: rest =>
      if k == line then (k, if fs.contains file then fs else fs ++ [file]) :: rest
      else (k, fs) :: archUpdate rest line file

/-- Aggregation pass 1, arch-specific lines of one per-file output. -/
def dockerCollectArchStep (m : List (String × List String))
    (o : DockerFileOutput) : List (String × List String) :=
  o.arch_specific_lines.foldl (fun m line => archUpdate m line o.file) m

def dockerCollectArch (outputs : List DockerFileOutput) :
    List (String × List String) :=
  outputs.foldl dockerCollectArchStep []

/-- Key comparison for `sorted(images_data.items())` /
`sorted(all_arch_specific_lines.items())` (tuple comparison; the keys
are unique, so the tuple order is the key order). -/
def pairKeyLe {β : Type} (p q : String × β) : Bool := strLeB p.1 q.1

/-- `(used in: `f1`, `f2`)` string of aggregation pass 3. -/
def dockerFilesStrUsed (files_list : List String) : String :=
  "(used in: " ++ strJoin ", " (files_list.map (fun f => "`" ++ f ++ "`")) ++ ")"

/-- `(in `f1`, `f2`)` string of the arch-line walk. -/
def dockerFilesStrIn (files : List String) : String :=
  "(in " ++ strJoin ", " (files.map (fun f => "`" ++ f ++ "`")) ++ ")"

/-- One per-image assessment row of aggregation pass 3. -/
structure DockerAssessment where
  image : String
  files : List String
  platforms_explicitly_used : List String
  arm64_support_native : Compat
  native_support_reason : String
  native_architectures : List String
  migration_potential : String
  required_actions : List String
  deriving DecidableEq, Repr

/-- Pass-3 processing of one unique image: assessment plus the reasoning
lines and recommendations it adds, and the updated overall potential. -/
def dockerImageAssess (overall : String) (image_key : String) (data : ImgData)
    (mi : ManifestCheckResult) :
    DockerAssessment × List String × List String × String :=
  let files_list := pySortedSet data.files
  let files_str := dockerFilesStrUsed files_list
  let reason := if mi.reason != "" then mi.reason else "Information unavailable"
  let base : DockerAssessment :=
    { image := image_key, files := files_list,
      platforms_explicitly_used := pySortedSet data.platforms_used,
      arm64_support_native := mi.compatible,
      native_support_reason := mi.reason,
      native_architectures := mi.architectures,
      migration_potential := "Unknown", required_actions := [] }
  match mi.compatible with
  | .ctrue =>
      if data.platforms_used.contains "linux/amd64" then
        ({ base with
             migration_potential := "High",
             required_actions :=
               ["Remove or change `--platform=linux/amd64` flag in FROM lines."] },
          ["Modify Dockerfile(s) for `" ++ image_key
            ++ "`: remove/change explicit `--platform=linux/amd64` " ++ files_str ++ "."],
          ["✅ Base image `" ++ image_key ++ "` natively supports ARM64 " ++ files_str ++ ".",
           "   * Note: It was used with `--platform=linux/amd64` which needs removal/change."],
          overall)
      else
        ({ base with migration_potential := "High" },
          [],
          ["✅ Base image `" ++ image_key ++ "` natively supports ARM64 " ++ files_str ++ ".",
           "   * No explicit `--platform=linux/amd64` flag was detected for this image."],
          overall)
  | .cfalse =>
      ({ base with migration_potential := "Not Possible / Very Difficult" },
        ["Major Blocker: Base image `" ++ image_key
          ++ "` is not ARM64 compatible. Replace it with a multi-arch or ARM64 variant "
          ++ files_str ++ "."],
        ["❌ Base image `" ++ image_key ++ "` does *not* natively support ARM64 "
          ++ files_str ++ ". Reason: " ++ reason],
        "Low")
  | _ =>
      ({ base with migration_potential := "Unknown / Needs Verification" },
        ["Action Required: Manually verify ARM64 support for `" ++ image_key ++ "` "
          ++ files_str
          ++ " (e.g., check Docker Hub, docs, try building for arm64)."],
        ["❓ Native ARM64 support for base image `" ++ image_key ++ "` is unknown "
          ++ files_str ++ ". Reason: " ++ reason],
        if overall == "High" then "Medium" else overall)

/-- Case-sensitive ordered-alternation match (the arch-line walk applies
its patterns to the already lower-cased line without `re.IGNORECASE`). -/
def matchAnyLit (ks : List String) (cs : List Char) : Option (List Char) :=
  match ks with
  | [] => none
  | k :: rest =>
      match matchLit k.toList cs with
      | some r => some r
      | none => matchAnyLit rest cs

/-- `(wget|curl).*(amd64|x86_64).*\.(deb|rpm|bin|zip|tar\.gz)` on the
lower-cased line. -/
def dockerAggPatDl (ll : String) : Bool :=
  searchAt (fun cs =>
    match matchAnyLit ["wget", "curl"] cs with
    | none => false
    | some r =>
        searchAt (fun es =>
          match matchAnyLit ["amd64", "x86_64"] es with
          | none => false
          | some r2 =>
              searchAt (fun fs =>
                match fs with
                | '.' :: r3 =>
                    (matchAnyLit ["deb", "rpm", "bin", "zip", "tar.gz"] r3).isSome
                | _ => false) r2) r)
    ll.toList

/-- `dpkg --add-architecture (amd64|x86_64)` on the lower-cased line. -/
def dockerAggPatDpkg (ll : String) : Bool :=
  searchAt (fun cs =>
    match matchLit "dpkg --add-architecture ".toList cs with
    | none => false
    | some r => (matchAnyLit ["amd64", "x86_64"] r).isSome)
    ll.toList

/-- `(apt-get|yum|dnf|apk)\s+install.*:(amd64|x86_64)` on the lower-cased
line. -/
def dockerAggPatInstall (ll : String) : Bool :=
  searchAt (fun cs =>
    match matchAnyLit ["apt-get", "yum", "dnf", "apk"] cs with
    | none => false
    | some r =>
        match munchWs1 r with
        | none => false
        | some r2 =>
            match matchLit "install".toList r2 with
            | none => false
            | some r3 =>
                searchAt (fun ds =>
                  match ds with
                  | ':' :: r4 => (matchAnyLit ["amd64", "x86_64"] r4).isSome
                  | _ => false) r3)
    ll.toList

/-- `(copy|add).*\.(so|a)\s+` on the lower-cased line. -/
def dockerAggPatLib (ll : String) : Bool :=
  searchAt (fun cs =>
    match matchAnyLit ["copy", "add"] cs with
    | none => false
    | some r =>
        searchAt (fun ds =>
          match ds with
          | '.' :: r2 =>
              ["so", "a"].any (fun e =>
                match matchLit e.toList r2 with
                | some (c :: _) => isWs c
                | _ => false)
          | _ => false) r)
    ll.toList

/-- `(copy|add).*(amd64|x86_64)` on the lower-cased line. -/
def dockerAggPatCopyArch (ll : String) : Bool :=
  searchAt (fun cs =>
    match matchAnyLit ["copy", "add"] cs with
    | none => false
    | some r => ["amd64", "x86_64"].any (fun k => containsSub k (String.mk r)))
    ll.toList

/-- Arch-line-walk outcome for one line: reasoning added,
recommendations added, blocker flag, review flag. -/
def dockerArchLineAssess (line : String) (files : List String) :
    List String × List String × Bool × Bool :=
  let files_str := dockerFilesStrIn files
  let ll := pyLower line
  if dockerAggPatDl ll || dockerAggPatDpkg ll || dockerAggPatInstall ll then
    (["   * ❌ Potential Blocker: Line explicitly fetches or installs x86-specific binary/package: `"
        ++ line ++ "` " ++ files_str],
      ["Investigate/Modify: Replace x86-specific download/install with ARM64 equivalent or multi-arch method in line: `"
        ++ line ++ "` " ++ files_str],
      true, false)
  else if dockerAggPatLib ll then
    (["   * ⚠️ Review Needed: Line copies native library (`.so`, `.a`). Ensure ARM64 version is available/built: `"
        ++ line ++ "` " ++ files_str],
      ["Verify/Modify: Ensure ARM64 compatible library is copied or built for line: `"
        ++ line ++ "` " ++ files_str],
      false, true)
  else if dockerAggPatCopyArch ll then
    (["   * ⚠️ Review Needed: Line copies file potentially named for x86. Check if ARM variant needed: `"
        ++ line ++ "` " ++ files_str],
      ["Verify/Modify: Check if ARM variant needed for file copied in line: `"
        ++ line ++ "` " ++ files_str],
      false, true)
  else if containsSub "--platform=linux/amd64" ll
      && !(strStartsWith (pyUpper (pyStrip line)) "FROM") then
    (["   * ⚠️ Review Needed: Line uses `--platform` flag outside FROM. Check context: `"
        ++ line ++ "` " ++ files_str],
      ["Verify: Understand use of `--platform` in non-FROM line: `"
        ++ line ++ "` " ++ files_str],
      false, true)
  else if searchWordBounded "TARGETARCH" line || searchWordBounded "TARGETPLATFORM" line then
    (["   * ✅ Info: Line uses multi-arch build arguments (TARGETARCH/TARGETPLATFORM). This is generally good for ARM compatibility: `"
        ++ line ++ "` " ++ files_str],
      [], false, false)
  else if searchWordBounded "amd64" ll || searchWordBounded "x86_64" ll then
    (["   * ⚠️ Review Needed: Line contains x86 keyword (\x27amd64\x27/\x27x86_64\x27). Review context: `"
        ++ line ++ "` " ++ files_str],
      ["Verify: Review use of x86 keyword in line: `" ++ line ++ "` " ++ files_str],
      false, true)
  else ([], [], false, false)

/-- Aggregated output dictionary of `DockerAnalyzer.aggregate_results`. -/
structure DockerAgg where
  results : List DockerAssessment
  recommendations : List String
  reasoning : List String
  overall_potential : String
  deriving DecidableEq, Repr

/-- `DockerAnalyzer.aggregate_results`, with the per-image manifest
checks supplied by `reg` (one `RegistryOracle` per normalized image
key; the module-level caches make repeated checks of one key
deterministic within one analysis). -/
def dockerAggregate (reg : String → RegistryOracle)
    (analysis_outputs : List DockerFileOutput) : DockerAgg :=
  let imagesSorted := sortLe pairKeyLe (dockerCollectImages analysis_outputs)
  let archSorted := sortLe pairKeyLe (dockerCollectArch analysis_outputs)
  let pass3 := imagesSorted.foldl
    (fun (acc : List DockerAssessment × List String × List String × String) kv =>
      let mi := dockerCheckManifest (reg kv.1) kv.1
      let r := dockerImageAssess acc.2.2.2 kv.1 kv.2 mi
      (acc.1 ++ [r.1], acc.2.1 ++ r.2.1, acc.2.2.1 ++ r.2.2.1, r.2.2.2))
    ([], [], [], "High")
  let assessments := pass3.1
  let recs0 := pass3.2.1
  let reasoning0 := pass3.2.2.1
  let overall0 := pass3.2.2.2
  let walk :=
    if archSorted != [] then
      let w := archSorted.foldl
        (fun (acc : List String × List String × Bool × Bool) kv =>
          let r := dockerArchLineAssess kv.1 kv.2
          (acc.1 ++ r.1, acc.2.1 ++ r.2.1, acc.2.2.1 || r.2.2.1,
            acc.2.2.2 || r.2.2.2))
        ([], [], false, false)
      let overall1 :=
        if w.2.2.1 then (if overall0 != "Low" then "Low" else overall0)
        else if w.2.2.2 then (if overall0 == "High" then "Medium" else overall0)
        else overall0
      (reasoning0 ++ ["---", "ℹ️ Analysis of specific commands/lines across Dockerfiles:"]
         ++ w.1,
        recs0 ++ w.2.1, overall1)
    else (reasoning0, recs0, overall0)
  let reasoning := walk.1
  let recs := walk.2.1
  let overall := walk.2.2
  let final_summary :=
    "Overall ARM Migration Potential: " ++ overall ++ ". " ++
    (if overall == "High" then
      "Looks promising. Primarily requires Dockerfile adjustments (like removing --platform) and standard testing."
    else if overall == "Medium" then
      "Possible, but requires careful review of base image compatibility (if unknown) and specific Dockerfile commands. Thorough testing is crucial."
    else if overall == "Low" then
      "Significant challenges detected (incompatible base images or hard-coded x86 dependencies). Major refactoring or alternative solutions likely needed."
    else
      "Cannot determine potential without verifying base image compatibility.")
  { results := assessments,
    recommendations := [final_summary] ++ pySortedSet recs,
    reasoning := reasoning,
    overall_potential := overall }


/-! ### Dependency manager (`dependency_analyzer/manager.py`) -/

/-- One parsed dependency (keys the two parsers can set; `none` models
an absent key or a Python `None` value). -/
structure DepInfo where
  name : Option String := none
  version_spec : Option String := none
  original_line : Option String := none
  file : Option String := none
  parse_error : Bool := false
  dev_dependency : Option Bool := none
  deriving DecidableEq, Repr

/-- One result of `check_compatibility` (the checker spreads the
dependency dictionary and adds its own keys). -/
structure DepCheckResult where
  name : Option String := none
  version_spec : Option String := none
  version : Option String := none
  file : Option String := none
  compatible : Compat := .cunknown
  reason : String := ""
  direct : Option Bool := none
  parent : Option String := none
  dev_dependency : Option Bool := none
  deriving DecidableEq, Repr

/-- Output dictionary of `DependencyManager.analyze`. -/
structure DepOutput where
  parsed_deps : List DepInfo := []
  file_type : Option String := none
  file : String := "unknown_file"
  error : Option String := none
  deriving DecidableEq, Repr

/-- `if "file" not in dep_info: dep_info["file"] = file_path`. -/
def depWithFile (d : DepInfo) (file_path : String) : DepInfo :=
  match d.file with
  | none => { d with file := some file_path }
  | some _ => d

/-- Reasoning/recommendation production for one checked dependency
(the `comp_status is False` / `== "partial"` block of
`DependencyManager.aggregate_results`). `directSet` is the running
`direct_python_incompatible` set; returns (reasoning added,
recommendations added, updated set). -/
def depMessagesFor (file_type : String) (file_path : String)
    (directSet : List String) (r : DepCheckResult) :
    List String × List String × List String :=
  let is_direct := r.direct.getD true
  let is_dev := r.dev_dependency.getD false
  let pkg_name := r.name.getD "unknown_package"
  let reason := r.reason
  let package_info :=
    if file_type == "python" then "`" ++ pkg_name ++ r.version_spec.getD "" ++ "`"
    else if file_type == "javascript" then
      let vs := r.version_spec.getD ""
      let version_str := if vs != "" then vs else r.version.getD ""
      "`" ++ pkg_name ++ "@" ++ version_str ++ "`"
    else "`" ++ pkg_name ++ "`"
  let lang_prefix :=
    if file_type == "python" then "Python"
    else if file_type == "javascript" then "JavaScript"
    else "Dependency"
  let file_context := "in `" ++ file_path ++ "`"
  match r.compatible with
  | .cfalse =>
      let reason_msg := lang_prefix ++ " package " ++ package_info
        ++ " is not compatible with ARM64 " ++ file_context ++ ". Reason: " ++ reason
      let rec_msg := some ("Replace " ++ package_info
        ++ " with an ARM64 compatible alternative " ++ file_context ++ ".")
      if file_type == "python" then
        if is_direct then
          ([reason_msg], rec_msg.toList, setAdd directSet pkg_name)
        else
          let parent := r.parent.getD "unknown parent"
          let reason_msg := "Transitive " ++ lang_prefix ++ " dependency "
            ++ package_info ++ " (required by `" ++ parent
            ++ "`) is not compatible with ARM64 " ++ file_context ++ ". Reason: " ++ reason
          let rec_msg :=
            if directSet.contains parent then none
            else some ("Consider alternatives for `" ++ parent
              ++ "` to avoid its incompatible dependency " ++ package_info
              ++ " " ++ file_context ++ ".")
          ([reason_msg], rec_msg.toList, directSet)
      else ([reason_msg], rec_msg.toList, directSet)
  | .cpart =>
      let reason_msg := lang_prefix ++ " package " ++ package_info
        ++ " may have ARM64 compatibility issues " ++ file_context ++ ". Reason: " ++ reason
      let rec_msg :=
        if file_type == "javascript" && is_dev then
          "Test dev dependency " ++ package_info ++ " on ARM64 " ++ file_context
            ++ " (may only affect build environment)."
        else if file_type == "python" && !is_direct then
          "Test `" ++ r.parent.getD "unknown parent" ++ "` with its dependency "
            ++ package_info ++ " on ARM64 for compatibility " ++ file_context ++ "."
        else
          "Test " ++ package_info ++ " on ARM64 and check for compatibility issues "
            ++ file_context ++ "."
      let reason_msg :=
        if file_type == "python" && !is_direct then
          "Transitive " ++ lang_prefix ++ " dependency " ++ package_info
            ++ " (required by `" ++ r.parent.getD "unknown parent"
            ++ "`) may have ARM64 compatibility issues " ++ file_context
            ++ ". Reason: " ++ reason
        else reason_msg
      ([reason_msg], [rec_msg], directSet)
  | _ => ([], [], directSet)

/-- Loop state of `DependencyManager.aggregate_results`. -/
structure DepAggState where
  directSet : List String := []
  results : List DepCheckResult := []
  recs : List String := []
  reasoning : List String := []
  deriving DecidableEq, Repr

/-- Process one parsed dependency of one output. -/
def depStepDep (checker : DepInfo → DepCheckResult) (file_type file_path : String)
    (st : DepAggState) (dep : DepInfo) : DepAggState :=
  let r := checker (depWithFile dep file_path)
  let m := depMessagesFor file_type file_path st.directSet r
  { directSet := m.2.2,
    results := st.results ++ [r],
    recs := st.recs ++ m.2.1,
    reasoning := st.reasoning ++ m.1 }

/-- Process one per-file output (the `continue` guards of the outer
loop). `checkPy` / `checkJs` stand for the two checkers, pure given the
process-lifetime registry caches. -/
def depStepOutput (checkPy checkJs : DepInfo → DepCheckResult)
    (st : DepAggState) (o : DepOutput) : DepAggState :=
  let ftype := o.file_type.getD ""
  if ftype == "" || o.parsed_deps == [] then st
  else
    match (if ftype == "python" then some checkPy
           else if ftype == "javascript" then some checkJs else none) with
    | none => st
    | some checker => o.parsed_deps.foldl (depStepDep checker ftype o.file) st

/-- The final de-duplication of results by `(name, version_spec)` (the
`version_spec` key is present on every checker result, so the
`result.get("version_spec", result.get("version"))` default never
fires). -/
def depDedupResults (rs : List DepCheckResult) : List DepCheckResult :=
  (rs.foldl
    (fun (acc : List (Option String × Option String) × List DepCheckResult) r =>
      let key := (r.name, r.version_spec)
      if acc.1.contains key then acc
      else (acc.1 ++ [key], acc.2 ++ [r]))
    ([], [])).2

/-- Aggregated output dictionary of `DependencyManager.aggregate_results`. -/
structure DepAgg where
  results : List DepCheckResult
  recommendations : List String
  reasoning : List String
  deriving DecidableEq, Repr

/-- `DependencyManager.aggregate_results`. -/
def depAggregate (checkPy checkJs : DepInfo → DepCheckResult)
    (analysis_outputs : List DepOutput) : DepAgg :=
  let st := analysis_outputs.foldl (depStepOutput checkPy checkJs) {}
  { results := depDedupResults st.results,
    recommendations := pySortedSet st.recs,
    reasoning := st.reasoning }

/-! ### Orchestrator verdict
(`AnalysisOrchestrator._determine_overall_compatibility`) -/

/-- A result item inside some analyzer slot of `analysis_details`. -/
inductive OrchFinding where
  | tf (r : TfResultItem)
  | docker (a : DockerAssessment)
  | dep (d : DepCheckResult)
  deriving DecidableEq, Repr

/-- `item.get("compatible")`: infra and dependency result items carry
the `compatible` key; docker assessments do not (their dictionary
stores the registry outcome under `arm64_support_native`), so `.get`
yields Python `None` for them. -/
def OrchFinding.compatibleField : OrchFinding → Option Compat
  | .tf r => some r.res.compatible
  | .docker _ => none
  | .dep d => some d.compatible

/-- One analyzer slot of `analysis_details` (or the error placeholder
the orchestrator stores when aggregation raised). -/
structure AggResult where
  results : List OrchFinding := []
  recommendations : List String := []
  reasoning : List String := []
  error : Option String := none
  deriving DecidableEq, Repr

def TfAgg.toAggResult (a : TfAgg) : AggResult :=
  { results := a.results.map OrchFinding.tf,
    recommendations := a.recommendations, reasoning := a.reasoning }

def DockerAgg.toAggResult (a : DockerAgg) : AggResult :=
  { results := a.results.map OrchFinding.docker,
    recommendations := a.recommendations, reasoning := a.reasoning }

def DepAgg.toAggResult (a : DepAgg) : AggResult :=
  { results := a.results.map OrchFinding.dep,
    recommendations := a.recommendations, reasoning := a.reasoning }

/-- Counting state of `_determine_overall_compatibility`. -/
structure OverallCounts where
  has_findings : Bool := false
  has_incompatible : Bool := false
  incompatible_count : Nat := 0
  compatible_count : Nat := 0
  unknown_count : Nat := 0
  deriving DecidableEq, Repr

def overallCountItem (st : OverallCounts) (item : OrchFinding) : OverallCounts :=
  match item.compatibleField with
  | some .cfalse =>
      { st with has_incompatible := true,
                incompatible_count := st.incompatible_count + 1 }
  | some .ctrue => { st with compatible_count := st.compatible_count + 1 }
  | _ => { st with unknown_count := st.unknown_count + 1 }

def overallCountAgg (st : OverallCounts) (kv : String × AggResult) : OverallCounts :=
  if kv.2.results != [] then
    kv.2.results.foldl overallCountItem { st with has_findings := true }
  else if optStrTruthy kv.2.error then
    { st with unknown_count := st.unknown_count + 1 }
  else st

/-- The final result structure built by
`_determine_overall_compatibility` (context flattened into fields). -/
structure FinalResult where
  analysis_details : List (String × AggResult)
  overall_compatibility : String
  recommendations : List String
  reasoning : List String
  enabled_analyzers : List String
  files_analyzed_by_type : List (String × Nat)
  total_files_analyzed : Nat
  incompatible_items : Nat
  compatible_items : Nat
  unknown_items : Nat
  deriving DecidableEq, Repr

/-- `AnalysisOrchestrator._determine_overall_compatibility`. -/
def determineOverallCompatibility (aggregated : List (String × AggResult))
    (combinedRecs combinedReasoning : List String)
    (enabled : List String) (files_by_type : List (String × Nat))
    (total_files_analyzed : Nat) : FinalResult :=
  let c := aggregated.foldl overallCountAgg {}
  let trip : String × List String × List String :=
    if !c.has_findings && total_files_analyzed == 0 then
      ("unknown",
        "No relevant files found for enabled analyzers." :: combinedReasoning,
        "Verify repository structure and enabled analyzers if analysis was expected."
          :: combinedRecs)
    else if !c.has_findings && total_files_analyzed > 0 then
      ("unknown",
        "No specific ARM64 compatibility indicators found in analyzed files."
          :: combinedReasoning,
        "Manual verification recommended as no specific issues were detected."
          :: combinedRecs)
    else if c.has_incompatible then
      ("incompatible",
        "Repository marked as incompatible due to one or more components conflicting with ARM64."
          :: combinedReasoning,
        combinedRecs)
    else
      ("compatible",
        "Repository appears likely compatible with ARM64 as no explicitly incompatible components were found."
          :: combinedReasoning,
        combinedRecs)
  { analysis_details := aggregated,
    overall_compatibility := trip.1,
    recommendations := pySortedSet trip.2.2,
    reasoning := dedupFirst trip.2.1,
    enabled_analyzers := enabled,
    files_analyzed_by_type := files_by_type,
    total_files_analyzed := total_files_analyzed,
    incompatible_items := c.incompatible_count,
    compatible_items := c.compatible_count,
    unknown_items := c.unknown_count }


/-! ### Python requirements parser
(`dependency_analyzer/python_checker.py`, `parse_dependencies`) -/

def reqNameChar (c : Char) : Bool := c.isAlphanum || c = '_' || c = '.' || c = '-'
def reqExtrasChar (c : Char) : Bool :=
  c.isAlphanum || c = ',' || c = '_' || c = '.' || c = '-'
def reqSpecStart (c : Char) : Bool :=
  c = '=' || c = '<' || c = '>' || c = '!' || c = '~'

/-- Match of `^([A-Za-z0-9_.-]+)(\[[A-Za-z0-9,_.-]+\])?\s*([=<>!~].+)?$`
against one stripped line: (group 1 name, group 2 extras incl. brackets,
group 3 specifier). -/
def reqLineMatch (line : String) :
    Option (String × Option String × Option String) :=
  match munch1 reqNameChar line.toList with
  | none => none
  | some (nameCs, r1) =>
      let er : Option String × List Char :=
        match r1 with
        | '[' :: r2 =>
            match munch1 reqExtrasChar r2 with
            | some (inner, ']' :: r3) => (some ("[" ++ String.mk inner ++ "]"), r3)
            | _ => (none, r1)
        | _ => (none, r1)
      match skipWs er.2 with
      | [] => some (String.mk nameCs, er.1, none)
      | c :: rest =>
          if reqSpecStart c && rest != [] then
            some (String.mk nameCs, er.1, some (String.mk (c :: rest)))
          else none

/-- `PythonDependencyChecker.parse_dependencies`.  Faithful to the
source, `version_spec` is taken from `match.group(2)` — the *extras*
capture group — not from group 3, the specifier; unmatched lines become
`parse_error` entries. -/
def parse_dependencies_py (file_content file_path : String) : List DepInfo :=
  (pySplitlines file_content).filterMap (fun rawLine =>
    let line0 := pyStrip rawLine
    let line :=
      if strContainsChar '#' line0 then
        match pySplitOnce '#' line0 with
        | some (before, _) => pyStrip before
        | none => line0
      else line0
    if line == "" then none
    else
      match reqLineMatch line with
      | some (name, extras, _spec3) =>
          some { name := some name,
                 version_spec := extras.map pyStrip,
                 original_line := some line, file := some file_path }
      | none =>
          some { name := some line, version_spec := none,
                 original_line := some line, file := some file_path,
                 parse_error := true })

/-! ### PEP 440 versions and specifiers (model of the external
`packaging` library, restricted to release segments and an optional
pre-release `(phase, number)` with phase a=0, b=1, rc=2; epoch, post,
dev and local segments are not modelled) -/

structure PyVer where
  release : List Nat
  pre : Option (Nat × Nat) := none
  deriving DecidableEq, Repr

/-- Drop trailing zero release segments (PEP 440 zero padding:
`1.0` = `1.0.0`). -/
def normRel (l : List Nat) : List Nat := (l.reverse.dropWhile (fun n => n == 0)).reverse

/-- Strict lexicographic comparison of (normalized) release lists. -/
def natListLtB : List Nat → List Nat → Bool
  | [], [] => false
  | [], _ :: _ => true
  | _ :: _, [] => false
  | a :: as, b :: bs => a < b || (a == b && natListLtB as bs)

/-- Pre-release ordering: a final release sorts after any pre-release of
the same release. -/
def preLeB : Option (Nat × Nat) → Option (Nat × Nat) → Bool
  | none, none => true
  | none, some _ => false
  | some _, none => true
  | some (p, n), some (q, m) => p < q || (p == q && n ≤ m)

/-- `Version.__le__` on the modelled fragment. -/
def pvLeB (a b : PyVer) : Bool :=
  if normRel a.release = normRel b.release then preLeB a.pre b.pre
  else natListLtB (normRel a.release) (normRel b.release)

def pvLtB (a b : PyVer) : Bool := !(pvLeB b a)

def pvEqB (a b : PyVer) : Bool := pvLeB a b && pvLeB b a

theorem natListLtB_trans : ∀ a b c : List Nat,
    natListLtB a b = true → natListLtB b c = true → natListLtB a c = true
  | [], [], _, h, _ => by simp [natListLtB] at h
  | [], _ :: _, [], _, h => by simp [natListLtB] at h
  | [], _ :: _, _ :: _, _, _ => by simp [natListLtB]
  | _ :: _, [], _, h, _ => by simp [natListLtB] at h
  | _ :: _, _ :: _, [], _, h => by simp [natListLtB] at h
  | a :: as, b :: bs, c :: cs, h1, h2 => by
      simp only [natListLtB, Bool.or_eq_true, Bool.and_eq_true, beq_iff_eq,
        decide_eq_true_eq] at h1 h2 ⊢
      rcases h1 with h1 | ⟨h1e, h1t⟩
      · rcases h2 with h2 | ⟨h2e, h2t⟩
        · exact Or.inl (Nat.lt_trans h1 h2)
        · exact Or.inl (h2e ▸ h1)
      · rcases h2 with h2 | ⟨h2e, h2t⟩
        · exact Or.inl (h1e ▸ h2)
        · exact Or.inr ⟨h1e.trans h2e, natListLtB_trans as bs cs h1t h2t⟩

theorem natListLtB_asymm : ∀ a b : List Nat,
    natListLtB a b = true → natListLtB b a = false
  | [], [], h => by simp [natListLtB] at h
  | [], _ :: _, _ => by simp [natListLtB]
  | _ :: _, [], h => by simp [natListLtB] at h
  | a :: as, b :: bs, h => by
      simp only [natListLtB, Bool.or_eq_true, Bool.and_eq_true, beq_iff_eq,
        decide_eq_true_eq] at h
      by_cases he : b = a
      · subst he
        have ht : natListLtB as bs = true := by
          rcases h with h | ⟨_, ht⟩
          · omega
          · exact ht
        simp [natListLtB, natListLtB_asymm as bs ht]
      · have hnb : ¬ b < a := by
          rcases h with h | ⟨h, _⟩ <;> omega
        simp [natListLtB, hnb, he]

theorem natListLtB_connex : ∀ a b : List Nat, a ≠ b →
    natListLtB a b = true ∨ natListLtB b a = true
  | [], [], h => absurd rfl h
  | [], _ :: _, _ => by simp [natListLtB]
  | _ :: _, [], _ => by simp [natListLtB]
  | a :: as, b :: bs, h => by
      simp only [natListLtB, Bool.or_eq_true, Bool.and_eq_true, beq_iff_eq,
        decide_eq_true_eq]
      by_cases he : a = b
      · subst he
        have hne : as ≠ bs := fun hc => h (by rw [hc])
        rcases natListLtB_connex as bs hne with h1 | h1
        · exact Or.inl (Or.inr ⟨rfl, h1⟩)
        · exact Or.inr (Or.inr ⟨rfl, h1⟩)
      · rcases Nat.lt_or_ge a b with h1 | h1
        · exact Or.inl (Or.inl h1)
        · have : b < a := Nat.lt_of_le_of_ne h1 (fun hc => he hc.symm)
          exact Or.inr (Or.inl this)

theorem preLeB_refl : ∀ p, preLeB p p = true
  | none => rfl
  | some (p, n) => by simp [preLeB]

theorem preLeB_total : ∀ p q, preLeB p q = true ∨ preLeB q p = true
  | none, none => Or.inl rfl
  | none, some _ => Or.inr (by simp [preLeB])
  | some _, none => Or.inl (by simp [preLeB])
  | some (p, n), some (q, m) => by
      simp only [preLeB, Bool.or_eq_true, Bool.and_eq_true, beq_iff_eq,
        decide_eq_true_eq]
      omega

theorem preLeB_trans : ∀ p q r, preLeB p q = true → preLeB q r = true →
    preLeB p r = true
  | none, none, r, _, h2 => h2
  | none, some _, _, h1, _ => by simp [preLeB] at h1
  | some _, none, none, _, _ => by simp [preLeB]
  | some _, none, some _, _, h2 => by simp [preLeB] at h2
  | some (p, n), some (q, m), none, _, _ => by simp [preLeB]
  | some (p, n), some (q, m), some (r, k), h1, h2 => by
      simp only [preLeB, Bool.or_eq_true, Bool.and_eq_true, beq_iff_eq,
        decide_eq_true_eq] at h1 h2 ⊢
      omega

theorem pvLeB_refl (a : PyVer) : pvLeB a a = true := by
  simp [pvLeB, preLeB_refl]

theorem pvLeB_total (a b : PyVer) : pvLeB a b = true ∨ pvLeB b a = true := by
  unfold pvLeB
  by_cases h : normRel a.release = normRel b.release
  · simp only [h, if_true]
    exact preLeB_total a.pre b.pre
  · have h2 : normRel b.release ≠ normRel a.release := fun hc => h hc.symm
    simp only [h, h2, if_false]
    exact natListLtB_connex _ _ h

theorem pvLeB_trans (a b c : PyVer) (h1 : pvLeB a b = true)
    (h2 : pvLeB b c = true) : pvLeB a c = true := by
  unfold pvLeB at h1 h2 ⊢
  by_cases hab : normRel a.release = normRel b.release
  · rw [if_pos hab] at h1
    by_cases hbc : normRel b.release = normRel c.release
    · rw [if_pos hbc] at h2
      rw [if_pos (hab.trans hbc)]
      exact preLeB_trans _ _ _ h1 h2
    · rw [if_neg hbc] at h2
      have hac : normRel a.release ≠ normRel c.release := by
        rw [hab]; exact hbc
      rw [if_neg hac, hab]
      exact h2
  · rw [if_neg hab] at h1
    by_cases hbc : normRel b.release = normRel c.release
    · rw [if_pos hbc] at h2
      have hac : normRel a.release ≠ normRel c.release := by
        rw [← hbc]; exact hab
      rw [if_neg hac, ← hbc]
      exact h1
    · rw [if_neg hbc] at h2
      by_cases hac : normRel a.release = normRel c.release
      · exfalso
        rw [hac] at h1
        have hf := natListLtB_asymm _ _ h2
        rw [h1] at hf
        exact absurd hf (by simp)
      · rw [if_neg hac]
        exact natListLtB_trans _ _ _ h1 h2

/-- Python `max` over a nonempty list (keeps the first of equal
maxima: `x` replaces the running maximum only when `x > max`). -/
def pvMax (a : PyVer) (l : List PyVer) : PyVer :=
  l.foldl (fun m x => if pvLeB x m then m else x) a

theorem pvMax_mem (a : PyVer) (l : List PyVer) : pvMax a l ∈ a :: l := by
  induction l generalizing a with
  | nil => simp [pvMax]
  | cons x xs ih =>
      simp only [pvMax, List.foldl_cons]
      by_cases h : pvLeB x a = true
      · simp only [h, if_true]
        have := ih a
        simp only [pvMax] at this
        rcases List.mem_cons.mp this with h2 | h2
        · simp [h2]
        · simp [List.mem_cons, h2]
      · simp only [h, Bool.false_eq_true, if_false]
        have := ih x
        simp only [pvMax] at this
        rcases List.mem_cons.mp this with h2 | h2
        · simp [h2]
        · simp [List.mem_cons, h2]

theorem pvMax_ge (a : PyVer) (l : List PyVer) :
    ∀ v ∈ a :: l, pvLeB v (pvMax a l) = true := by
  induction l generalizing a with
  | nil =>
      intro v hv
      rcases List.mem_cons.mp hv with h | h
      · rw [h]; exact pvLeB_refl _
      · simp at h
  | cons x xs ih =>
      intro v hv
      simp only [pvMax, List.foldl_cons]
      by_cases h : pvLeB x a = true
      · simp only [h, if_true]
        rcases List.mem_cons.mp hv with h2 | h2
        · rw [h2]
          exact ih a a (by simp)
        · rcases List.mem_cons.mp h2 with h3 | h3
          · rw [h3]
            have ha : pvLeB a (pvMax a xs) = true := ih a a (by simp)
            exact pvLeB_trans _ _ _ h ha
          · exact ih a v (List.mem_cons_of_mem _ h3)
      · simp only [h, Bool.false_eq_true, if_false]
        have hax : pvLeB a x = true := by
          rcases pvLeB_total x a with h1 | h1
          · exact absurd h1 h
          · exact h1
        rcases List.mem_cons.mp hv with h2 | h2
        · rw [h2]
          have hx : pvLeB x (pvMax x xs) = true := ih x x (by simp)
          exact pvLeB_trans _ _ _ hax hx
        · rcases List.mem_cons.mp h2 with h3 | h3
          · rw [h3]
            exact ih x x (by simp)
          · exact ih x v (List.mem_cons_of_mem _ h3)

/-- Specifier operators the model covers. -/
inductive PyOp where
  | eq | ne | le | lt | ge | gt
  deriving DecidableEq, Repr

structure PySpecifier where
  op : PyOp
  ver : PyVer
  deriving DecidableEq, Repr

def specifierHolds (s : PySpecifier) (v : PyVer) : Bool :=
  match s.op with
  | .eq => pvEqB v s.ver
  | .ne => !(pvEqB v s.ver)
  | .le => pvLeB v s.ver
  | .lt => pvLtB v s.ver
  | .ge => pvLeB s.ver v
  | .gt => pvLtB s.ver v

/-- `SpecifierSet.contains(v, prereleases=True)` — exactly how the
checker filters (`specifier_set.filter(candidate_versions,
prereleases=True)`): every specifier must hold, with pre-release
gating disabled. -/
def specSetContainsPre (specs : List PySpecifier) (v : PyVer) : Bool :=
  specs.all (fun s => specifierHolds s v)

/-- Follows the words of the spec (§4.6.1: the resolution is
"prerelease-aware if the specifier permits"): default PEP 440
containment, under which a pre-release version can satisfy the
specifier set only when some specifier itself mentions a pre-release. -/
def specSetContainsDefault (specs : List PySpecifier) (v : PyVer) : Bool :=
  specSetContainsPre specs v &&
    (v.pre.isNone || specs.any (fun s => s.ver.pre.isSome))

/-- The version-resolution step of
`_check_pypi_package_arm_compatibility`: filter the parsed release
versions through the specifier set with `prereleases=True`, then take
the greatest (`str(max(allowed_versions))`). -/
def pypiResolve (specs : List PySpecifier) (candidates : List PyVer) :
    Option PyVer :=
  match candidates.filter (specSetContainsPre specs) with
  | [] => none
  | a :: rest => some (pvMax a rest)


/-! ### PyPI registry client
(`python_checker.py`, `_check_pypi_package_arm_compatibility`) -/

/-- Model of `packaging.utils.canonicalize_name`: lower-case; runs of
`-`, `_`, `.` collapse to a single `-`. -/
def canonicalizeName (s : String) : String :=
  let sep := fun c => c = '-' || c = '_' || c = '.'
  let step := fun (acc : List Char × Bool) (c : Char) =>
    if sep c then (acc.1, true)
    else ((if acc.2 && acc.1 != [] then acc.1 ++ ['-'] else acc.1) ++ [c.toLower], false)
  String.mk ((s.toList.foldl step ([], false)).1)

def lookupAssoc {β : Type} (m : List (String × β)) (k : String) : Option β :=
  match m with
  | [] => none
  | (k2, v) :: rest => if k2 == k then some v else lookupAssoc rest k

/-- One file record of a PyPI release. -/
structure PyFileInfo where
  filename : String := ""
  packagetype : String := ""
  yanked : Bool := false
  yanked_reason : Option String := none
  deriving DecidableEq, Repr

/-- One release entry: the version key, its parse outcome
(`none` models `parse_version` raising `InvalidVersion`), its files. -/
structure PyRelease where
  verStr : String
  ver : Option PyVer := none
  files : List PyFileInfo := []
  deriving DecidableEq, Repr

/-- The JSON document of `GET /pypi/<name>/json` (keys the client reads). -/
structure PypiData where
  releases : List PyRelease := []
  infoVersion : Option String := none
  classifiers : List String := []
  platform : Option String := none
  deriving DecidableEq, Repr

/-- Outcome of the PyPI request: 404, other non-200 status, parsed
document, or one of the two caught exception classes. -/
inductive PypiResp where
  | status404
  | statusOther (code : Nat)
  | ok (data : PypiData)
  | netError (msg : String)
  | exn (msg : String)
  deriving Repr

/-- The version specifier after `SpecifierSet(...)` parsing: absent,
invalid (`InvalidSpecifier` raised), or parsed (with its source text
for cache keys and messages). -/
inductive PySpecInput where
  | noSpec
  | invalid (s : String)
  | parsed (s : String) (specs : List PySpecifier)
  deriving Repr

def PySpecInput.text : PySpecInput → String
  | .noSpec => ""
  | .invalid s => s
  | .parsed s _ => s

/-- Result dictionary of `_check_pypi_package_arm_compatibility`. -/
structure PypiCheckResult where
  compatible : Compat
  reason : String
  checked_version : Option String := none
  warning : Option String := none
  deriving DecidableEq, Repr

/-- `cache_key = f"{name}@{spec}" if spec else name`. -/
def pypiCacheKey (nn : String) (spec : PySpecInput) : String :=
  if spec.text == "" then nn else nn ++ "@" ++ spec.text

/-- Wheel tag capture of `-([^-]+-[^-]+-[^-]+)\.whl$` at one position. -/
def wheelTagAt (cs : List Char) : Option String :=
  match cs with
  | '-' :: rest =>
      match munch1 (fun c => c ≠ '-') rest with
      | some (t1, '-' :: r2) =>
          match munch1 (fun c => c ≠ '-') r2 with
          | some (t2, '-' :: r3) =>
              match munch1 (fun c => c ≠ '-') r3 with
              | some (t3, []) =>
                  let s3 := String.mk t3
                  if strEndsWith s3 ".whl" && s3.toList.length > 4 then
                    some (String.mk t1 ++ "-" ++ String.mk t2 ++ "-" ++ strDropRight s3 4)
                  else none
              | _ => none
          | _ => none
      | _ => none
  | _ => none

/-- `re.search(r"-([^-]+-[^-]+-[^-]+)\.whl$", filename)`, group 1. -/
def wheelTagsOf (filename : String) : Option String :=
  (suffixes filename.toList).findSome? wheelTagAt

/-- File-classification loop of the PyPI check: returns
(arm_wheels, universal_wheels, sdist_files, other_arch_wheels),
skipping yanked files. -/
def pypiClassifyFiles (release_files : List PyFileInfo) :
    List String × List String × List String × List String :=
  release_files.foldl
    (fun acc release =>
      if release.yanked then acc
      else
        let filename := release.filename
        if release.packagetype == "bdist_wheel" then
          match wheelTagsOf filename with
          | some tagsRaw =>
              let tags := pyLower tagsRaw
              if ["aarch64", "arm64"].any (fun t => containsSub t tags) then
                (acc.1 ++ [filename], acc.2.1, acc.2.2.1, acc.2.2.2)
              else if containsSub "universal2" tags && containsSub "macosx" tags then
                (acc.1, acc.2.1 ++ [filename], acc.2.2.1, acc.2.2.2)
              else if containsSub "any" tags
                  && !(["win", "linux", "macosx", "x86_64", "amd64"].any
                        (fun t => containsSub t tags)) then
                (acc.1, acc.2.1 ++ [filename], acc.2.2.1, acc.2.2.2)
              else if ["win_amd64", "amd64", "x86_64", "x64", "win32", "i686"].any
                  (fun t => containsSub t tags) then
                (acc.1, acc.2.1, acc.2.2.1, acc.2.2.2 ++ [filename])
              else acc
          | none => acc
        else if release.packagetype == "sdist" then
          (acc.1, acc.2.1, acc.2.2.1 ++ [filename], acc.2.2.2)
        else acc)
    ([], [], [], [])

/-- The release-file analysis and final decision of the PyPI check for
a resolved target version. -/
def pypiDecide (data : PypiData) (target : String) : PypiCheckResult :=
  match data.releases.find? (fun r => r.verStr == target) with
  | none =>
      { compatible := .cunknown,
        reason := "Internal error: Target version " ++ target ++ " details missing.",
        checked_version := some target }
  | some rel =>
      let release_files := rel.files
      let yankedInfo : Bool × String :=
        match release_files with
        | [] => (false, "No reason provided")
        | f :: _ => (f.yanked, (f.yanked_reason.getD "No reason provided"))
      let yanked := yankedInfo.1
      let yanked_reason :=
        if yankedInfo.2 == "" then "No reason provided" else yankedInfo.2
      let cls := pypiClassifyFiles release_files
      let arm_wheels := cls.1
      let universal_wheels := cls.2.1
      let sdist_files := cls.2.2.1
      let other_arch_wheels := cls.2.2.2
      let base : PypiCheckResult :=
        if arm_wheels != [] then
          { compatible := .ctrue,
            reason := "ARM-specific wheels found for version " ++ target ++ "." }
        else if universal_wheels != [] then
          { compatible := .ctrue,
            reason := "Platform-agnostic or universal wheels found for version "
              ++ target ++ "." }
        else if sdist_files != [] then
          let has_native_code :=
            data.classifiers.any (fun c => containsSub "Programming Language :: C" c)
            || data.classifiers.any (fun c => containsSub "Programming Language :: C++" c)
            || data.classifiers.any (fun c => containsSub "Programming Language :: Cython" c)
          let is_platform_specific :=
            match data.platform with
            | none => false
            | some p => p != "" && p != "any"
          if has_native_code || is_platform_specific then
            { compatible := .cpart,
              reason := "Source distribution found for " ++ target
                ++ ", may require compilation on ARM64 (contains C/C++/Cython or platform markers)." }
          else
            { compatible := .ctrue,
              reason := "Likely pure Python source distribution found for "
                ++ target ++ "." }
        else if other_arch_wheels != [] then
          { compatible := .cfalse,
            reason := "Only non-ARM wheels (e.g., x86_64) found for non-yanked files of version "
              ++ target ++ "." }
        else
          { compatible := .cunknown,
            reason := "No non-yanked wheels or source distribution found for version "
              ++ target ++ " on PyPI." }
      { base with
        checked_version := some target,
        warning :=
          if yanked then
            some ("Version " ++ target ++ " is yanked: " ++ yanked_reason)
          else none }

/-- `_check_pypi_package_arm_compatibility`: cache lookup, request
outcome dispatch, version resolution, file classification.  Returns
(result, cache after the call, whether an HTTP request was issued).
Faithful to the source, network errors, non-200 statuses and unexpected
exceptions are returned WITHOUT being written to the cache. -/
def pypiCheck (cache : List (String × PypiCheckResult)) (package_name : String)
    (spec : PySpecInput) (resp : PypiResp) :
    PypiCheckResult × List (String × PypiCheckResult) × Bool :=
  let nn := canonicalizeName package_name
  let key := pypiCacheKey nn spec
  match lookupAssoc cache key with
  | some r => (r, cache, false)
  | none =>
      match resp with
      | .status404 =>
          let r : PypiCheckResult :=
            { compatible := .cunknown,
              reason := "Package \x27" ++ nn ++ "\x27 not found on PyPI." }
          (r, cache ++ [(key, r)], true)
      | .statusOther code =>
          ({ compatible := .cunknown,
             reason := "PyPI API error: HTTP " ++ toString code }, cache, true)
      | .netError msg =>
          ({ compatible := .cunknown,
             reason := "Network error checking PyPI: " ++ msg }, cache, true)
      | .exn msg =>
          ({ compatible := .cunknown,
             reason := "Unexpected error during PyPI check: " ++ msg }, cache, true)
      | .ok data =>
          if data.releases == [] then
            let r : PypiCheckResult :=
              { compatible := .cunknown,
                reason := "No releases found for \x27" ++ nn ++ "\x27 on PyPI." }
            (r, cache ++ [(key, r)], true)
          else
            match spec with
            | .invalid s =>
                let r : PypiCheckResult :=
                  { compatible := .cunknown,
                    reason := "Invalid version specifier: \x27" ++ s ++ "\x27" }
                (r, cache ++ [(key, r)], true)
            | .noSpec =>
                (match data.infoVersion with
                 | none =>
                     ({ compatible := .cunknown,
                        reason := "Could not determine latest version from PyPI info." },
                       cache, true)
                 | some target =>
                     let r := pypiDecide data target
                     (r, cache ++ [(key, r)], true))
            | .parsed s specs =>
                if data.releases.any (fun r => r.ver == none) then
                  -- `parse_version` raised `InvalidVersion`: fall back to
                  -- the latest reported version
                  match data.infoVersion with
                  | none =>
                      let r : PypiCheckResult :=
                        { compatible := .cunknown,
                          reason := "Could not determine target version due to parsing errors." }
                      (r, cache ++ [(key, r)], true)
                  | some target =>
                      let r := pypiDecide data target
                      (r, cache ++ [(key, r)], true)
                else
                  let allowed := (data.releases.filterMap
                    (fun r => r.ver.map (fun v => (r.verStr, v)))).filter
                      (fun p => specSetContainsPre specs p.2)
                  match allowed with
                  | [] =>
                      let r : PypiCheckResult :=
                        { compatible := .cunknown,
                          reason := "No version found satisfying \x27" ++ s ++ "\x27." }
                      (r, cache ++ [(key, r)], true)
                  | a :: rest =>
                      let best := (a :: rest).foldl
                        (fun m x => if pvLeB x.2 m.2 then m else x) a
                      let r := pypiDecide data best.1
                      (r, cache ++ [(key, r)], true)


/-! ### NPM registry client (`js_checker.py`,
`_check_npm_package_compatibility` and `max_satisfying`) -/

/-- Python dict assignment on an insertion-ordered association list. -/
def assocSet {β : Type} (m : List (String × β)) (k : String) (v : β) :
    List (String × β) :=
  match m with
  | [] => [(k, v)]
  | (k2, w) :: rest =>
      if k2 == k then (k2, v) :: rest else (k2, w) :: assocSet rest k v

/-- Python `repr` of a list of strings (as interpolated into the NPM
reason messages). -/
def pyReprStrList (l : List String) : String :=
  "[" ++ strJoin ", " (l.map (fun s => "\x27" ++ s ++ "\x27")) ++ "]"

structure SemVer where
  major : Nat
  minor : Nat
  patchNum : Nat
  deriving DecidableEq, Repr

def semverNumPart (s : String) : Option Nat :=
  if s == "" then none
  else if !(s.toList.all Char.isDigit) then none
  else if s.toList.length > 1 && strStartsWith s "0" then none
  else some (s.toList.foldl (fun n c => n * 10 + (c.toNat - 48)) 0)

/-- Model of `semver.VersionInfo.parse`: strict `major.minor.patch`
numerals without leading zeros; anything else (including pre-release or
build tails) fails, which the caller treats as a skipped entry. -/
def semverParse (s : String) : Option SemVer :=
  match (splitOnChar '.' s.toList).map String.mk with
  | [a, b, c] =>
      match semverNumPart a, semverNumPart b, semverNumPart c with
      | some ma, some mi, some pa => some ⟨ma, mi, pa⟩
      | _, _, _ => none
  | _ => none

def semverLtB (a b : SemVer) : Bool :=
  a.major < b.major || (a.major == b.major && (a.minor < b.minor ||
    (a.minor == b.minor && a.patchNum < b.patchNum)))

/-- `max_satisfying` of `js_checker.py`.  Faithful to the source (its
own NOTE documents the gap): only an empty/`*`/`latest` range or an
EXACT string match is ever satisfied — `^`, `~`, `>=` … ranges match
nothing. -/
def max_satisfying (available_versions : List String) (version_range : String) :
    Option String :=
  let valid := available_versions.filterMap (fun vs =>
    (semverParse vs).bind (fun p =>
      if version_range == "" || version_range == "*" || version_range == "latest"
      then some (vs, p)
      else if vs == version_range then some (vs, p)
      else none))
  match valid with
  | [] => none
  | a :: rest =>
      some ((rest.foldl (fun m x => if semverLtB x.2 m.2 then m else x) a).1)

/-- One version entry of the NPM registry document (keys the checker
reads; `cpu`/`os` strings are already coerced to singleton lists as the
source does). -/
structure NpmVersionMeta where
  cpu : List String := []
  os : List String := []
  binary : Bool := false
  scriptsInstall : String := ""
  scriptsPreinstall : String := ""
  scriptsPostinstall : String := ""
  gypfile : Bool := false
  deriving DecidableEq, Repr

structure NpmData where
  versions : List (String × NpmVersionMeta) := []
  distTagLatest : Option String := none
  deriving Repr

/-- Outcome of the NPM registry request: 404, parsed document, or one of
the caught exception classes (`RequestException` — which includes the
`HTTPError` from `raise_for_status` — `JSONDecodeError`, anything
else). -/
inductive NpmResp where
  | status404
  | ok (data : NpmData)
  | netError (msg : String)
  | jsonError (msg : String)
  | exn (msg : String)
  deriving Repr

/-- Result dictionary of `_check_npm_package_compatibility`. -/
structure NpmResult where
  compatible : Compat := .cunknown
  reason : String := "Initial state"
  checked_version : Option String := none
  spec_satisfied : Option Bool := none
  deriving DecidableEq, Repr

/-- The metadata checks 5a-5e of `_check_npm_package_compatibility` on
the resolved version: returns (status, collected reasons). -/
def npmMetadataCheck (meta : NpmVersionMeta) (reasons0 : List String) :
    Compat × List String :=
  let st0 : Compat := .ctrue
  -- 5a. cpu field
  let cpu := meta.cpu
  let step1 : Compat × List String :=
    if cpu != [] then
      let is_arm_allowed := ["arm", "arm64", "any"].any (fun a => cpu.contains a)
      let is_only_non_arm := cpu.all (fun a => a == "x64" || a == "ia32")
      let is_negated_arm_exclusion := cpu.any (fun a =>
        strStartsWith a "!" && (strDrop a 1 == "arm" || strDrop a 1 == "arm64"))
      let is_negated_other_inclusion := cpu.any (fun a =>
        strStartsWith a "!" && !(strDrop a 1 == "arm" || strDrop a 1 == "arm64"))
      if is_negated_arm_exclusion then
        (.cfalse, reasons0 ++
          ["CPU field explicitly excludes ARM (\x27" ++ pyReprStrList cpu ++ "\x27)"])
      else if !is_arm_allowed && is_only_non_arm then
        (.cfalse, reasons0 ++
          ["CPU field only lists non-ARM architectures (\x27" ++ pyReprStrList cpu ++ "\x27)"])
      else if !is_arm_allowed && !is_negated_other_inclusion && !(cpu.contains "any") then
        ((if st0 == .cfalse then st0 else .cpart), reasons0 ++
          ["CPU field (\x27" ++ pyReprStrList cpu ++ "\x27) does not explicitly mention ARM support"])
      else if cpu.contains "arm" && !(cpu.contains "arm64") then
        ((if st0 == .cfalse then st0 else .cpart), reasons0 ++
          ["CPU field mentions \x27arm\x27 but not \x27arm64\x27 (\x27" ++ pyReprStrList cpu ++ "\x27)"])
      else (st0, reasons0)
    else (st0, reasons0)
  -- 5b. os field
  let osf := meta.os
  let step2 : Compat × List String :=
    if osf != [] then
      let is_linux_excluded := osf.contains "!linux"
      let is_only_non_linux := osf.all (fun p =>
        p == "win32" || p == "darwin" || p == "freebsd")
      if is_linux_excluded then
        (.cfalse, step1.2 ++
          ["OS field explicitly excludes Linux (\x27" ++ pyReprStrList osf ++ "\x27)"])
      else if !(["linux", "any", "!win32", "!darwin"].any (fun p => osf.contains p))
          && is_only_non_linux then
        (.cfalse, step1.2 ++
          ["OS field only lists non-Linux platforms (\x27" ++ pyReprStrList osf ++ "\x27)"])
      else (step1.1, step1.2)
    else (step1.1, step1.2)
  -- 5c. binary field
  let step3 : Compat × List String :=
    if meta.binary then
      ((if step2.1 == .cfalse then step2.1 else .cpart), step2.2 ++
        ["Contains \x27binary\x27 field, may download pre-compiled native code"])
    else step2
  -- 5d. install scripts / gypfile
  let scripts_content := pyLower (strJoin " "
    [meta.scriptsInstall, meta.scriptsPreinstall, meta.scriptsPostinstall])
  let step4 : Compat × List String :=
    if meta.gypfile || containsSub "node-gyp" scripts_content
        || containsSub "node-pre-gyp" scripts_content then
      ((if step3.1 == .cfalse then step3.1 else .cpart), step3.2 ++
        ["Uses node-gyp/node-pre-gyp or has gypfile, likely involves native compilation"])
    else step3
  step4

/-- `JSDependencyChecker._check_npm_package_compatibility`: spec-keyed
cache short-circuit, request dispatch, version resolution with
latest-fallback, resolved-version cache, metadata checks.  Returns
(result, cache after the call, whether a registry request was issued). -/
def jsCheckNpm (cache : List (String × NpmResult))
    (package_name version_spec : String) (resp : NpmResp) :
    NpmResult × List (String × NpmResult) × Bool :=
  let fallback_key := package_name ++ "@" ++ version_spec
  let shortCircuit : Option NpmResult :=
    match lookupAssoc cache fallback_key with
    | some cached =>
        if cached.spec_satisfied == some false || cached.compatible == .cerror
        then some cached else none
    | none => none
  match shortCircuit with
  | some cached => (cached, cache, false)
  | none =>
      match resp with
      | .status404 =>
          let r : NpmResult :=
            { compatible := .cunknown,
              reason := "Package \x27" ++ package_name ++ "\x27 not found on NPM registry.",
              spec_satisfied := none }
          (r, assocSet cache fallback_key r, true)
      | .netError msg =>
          let r : NpmResult :=
            { compatible := .cunknown,
              reason := "Network error checking NPM: " ++ msg,
              spec_satisfied := none }
          (r, assocSet cache fallback_key r, true)
      | .jsonError _msg =>
          let r : NpmResult :=
            { compatible := .cunknown,
              reason := "Failed to parse NPM registry response.",
              spec_satisfied := none }
          (r, assocSet cache fallback_key r, true)
      | .exn msg =>
          let r : NpmResult :=
            { compatible := .cunknown,
              reason := "Unexpected error during JS compatibility check: " ++ msg,
              spec_satisfied := none }
          (r, assocSet cache fallback_key r, true)
      | .ok data =>
          if data.versions == [] then
            let r : NpmResult :=
              { compatible := .cunknown,
                reason := "No version information found for package \x27"
                  ++ package_name ++ "\x27 on NPM registry.",
                spec_satisfied := none }
            (r, assocSet cache fallback_key r, true)
          else
            let available := data.versions.map Prod.fst
            let latest := data.distTagLatest
            -- version resolution (its ValueError handler inlined)
            let resolution : Option (String × Bool × String) :=
              -- (target, is_fallback, reason after resolution)
              if version_spec == "" || version_spec == "*" || version_spec == "latest" then
                match latest with
                | some t => some (t, !(version_spec == "latest"), "Initial state")
                | none => none
              else
                match max_satisfying available version_spec with
                | some t =>
                    some (t, false,
                      "Resolved spec \x27" ++ version_spec ++ "\x27 to version " ++ t ++ ".")
                | none =>
                    match latest with
                    | some t =>
                        some (t, true,
                          "No version satisfied spec \x27" ++ version_spec
                            ++ "\x27, fell back to latest (" ++ t ++ ").")
                    | none => none
            match resolution with
            | none =>
                let e :=
                  if version_spec == "" || version_spec == "*" || version_spec == "latest"
                  then "Cannot determine latest version for fallback/default."
                  else "No version satisfies \x27" ++ version_spec
                    ++ "\x27 and no \x27latest\x27 tag found."
                let r : NpmResult :=
                  { compatible := .cunknown,
                    reason := "Invalid version spec \x27" ++ version_spec
                      ++ "\x27 or unable to resolve: " ++ e,
                    spec_satisfied := none }
                (r, assocSet cache fallback_key r, true)
            | some (target, is_fallback, reason1) =>
                let success_key := package_name ++ "@" ++ target
                match lookupAssoc cache success_key with
                | some cachedRaw =>
                    -- step 3: resolved-version cache hit; the two reason
                    -- rewrites test `spec_satisfied` AFTER it has been
                    -- overwritten, so they never fire (ported faithfully)
                    let cached := { cachedRaw with spec_satisfied := some (!is_fallback) }
                    let cached :=
                      if is_fallback && cached.spec_satisfied != some false then
                        { cached with reason := "Using cached result for " ++ target
                            ++ ", but note: current spec \x27" ++ version_spec
                            ++ "\x27 required fallback. Original reason: " ++ cached.reason }
                      else if !is_fallback && cached.spec_satisfied == some false then
                        { cached with reason := "Using cached result for " ++ target
                            ++ ", resolved from spec \x27" ++ version_spec
                            ++ "\x27. Original reason: " ++ cached.reason }
                      else cached
                    (cached, cache, true)
                | none =>
                    match lookupAssoc (data.versions.map (fun p => (p.1, p.2))) target with
                    | none =>
                        let r : NpmResult :=
                          { compatible := .cunknown,
                            reason := "Internal error: Metadata missing for resolved version "
                              ++ target ++ ".",
                            checked_version := some target,
                            spec_satisfied := some (!is_fallback) }
                        (r, assocSet cache success_key r, true)
                    | some meta =>
                        let reasons0 := if reason1 != "Initial state" then [reason1] else []
                        let mc := npmMetadataCheck meta reasons0
                        let final_reason0 := strJoin "; " (pySortedSet mc.2)
                        let final_reason :=
                          if final_reason0 == "" && mc.1 == .ctrue then
                            "Package version " ++ target
                              ++ " appears compatible based on metadata analysis."
                          else final_reason0
                        let r : NpmResult :=
                          { compatible := mc.1,
                            reason := final_reason,
                            checked_version := some target,
                            spec_satisfied := some (!is_fallback) }
                        let cache1 := assocSet cache success_key r
                        let cache2 :=
                          if is_fallback then assocSet cache1 fallback_key r else cache1
                        (r, cache2, true)


/-! ### Orchestrator pipeline (`AnalysisOrchestrator.analyze_repository`,
steps 2-6, instantiated for the terraform analyzer) -/

/-- One entry of the recursive repository tree. -/
structure TreeItem where
  type : String
  path : String
  deriving DecidableEq, Repr

/-- `re.search(r"\.tf$", path, re.IGNORECASE)` — the terraform
analyzer's single file pattern. -/
def tfPathMatch (path : String) : Bool := strEndsWith (pyLower path) ".tf"

/-- Steps 3-6 of `analyze_repository` with the terraform analyzer as the
single enabled analyzer: select blob paths matching the pattern, fetch
content through the `content` oracle, run `analyze`, build the per-file
record `{"file": path, **analysis_output}` (the analysis fields land at
TOP level, the `analysis` key stays absent), aggregate, and build the
final structure. -/
def analyzeRepoTerraformOnly (tree_items : List TreeItem)
    (content : String → Option String) : FinalResult :=
  let files := (tree_items.filter
    (fun i => i.type == "blob" && tfPathMatch i.path)).map (fun i => i.path)
  let outputs : List TfRecord := files.filterMap (fun p =>
    (content p).map (fun c =>
      let a := tfAnalyze c
      { file := p, analysis := none,
        instance_types := a.instance_types,
        other_indicators := a.other_indicators }))
  let total := outputs.length
  let aggR := (tfAggregate outputs).toAggResult
  determineOverallCompatibility [("instance_types", aggR)]
    aggR.recommendations aggR.reasoning ["terraform"]
    [("terraform", total)] total

/-! ### Lemmas about the verdict counting fold -/

theorem overallCountItem_incompat (st : OverallCounts) (item : OrchFinding) :
    (overallCountItem st item).has_incompatible
      = (st.has_incompatible || (item.compatibleField == some Compat.cfalse)) := by
  unfold overallCountItem
  rcases h : item.compatibleField with _ | c
  · simp [h]
  · cases c <;> simp [h]

theorem overallCountItem_findings (st : OverallCounts) (item : OrchFinding) :
    (overallCountItem st item).has_findings = st.has_findings := by
  unfold overallCountItem
  rcases h : item.compatibleField with _ | c
  · simp
  · cases c <;> simp

theorem countItems_incompat (items : List OrchFinding) (st : OverallCounts) :
    (items.foldl overallCountItem st).has_incompatible
      = (st.has_incompatible
          || items.any (fun i => i.compatibleField == some Compat.cfalse)) := by
  induction items generalizing st with
  | nil => simp
  | cons i rest ih =>
      simp only [List.foldl_cons, List.any_cons]
      rw [ih, overallCountItem_incompat]
      simp [Bool.or_assoc]

theorem countItems_findings (items : List OrchFinding) (st : OverallCounts) :
    (items.foldl overallCountItem st).has_findings = st.has_findings := by
  induction items generalizing st with
  | nil => rfl
  | cons i rest ih =>
      simp only [List.foldl_cons]
      rw [ih, overallCountItem_findings]

theorem countAgg_incompat (l : List (String × AggResult)) (st : OverallCounts) :
    (l.foldl overallCountAgg st).has_incompatible
      = (st.has_incompatible || l.any (fun kv =>
          kv.2.results.any (fun i => i.compatibleField == some Compat.cfalse))) := by
  induction l generalizing st with
  | nil => simp
  | cons kv rest ih =>
      simp only [List.foldl_cons, List.any_cons]
      rw [ih]
      unfold overallCountAgg
      by_cases h : kv.2.results != []
      · simp only [h, if_true]
        rw [countItems_incompat]
        simp [Bool.or_assoc]
      · simp only [h, Bool.false_eq_true, if_false]
        have hres : kv.2.results = [] := by
          simpa using h
        rw [hres]
        by_cases h2 : optStrTruthy kv.2.error = true <;> simp [h2]

theorem countAgg_findings (l : List (String × AggResult)) (st : OverallCounts) :
    (l.foldl overallCountAgg st).has_findings
      = (st.has_findings || l.any (fun kv => kv.2.results != [])) := by
  induction l generalizing st with
  | nil => simp
  | cons kv rest ih =>
      simp only [List.foldl_cons, List.any_cons]
      rw [ih]
      unfold overallCountAgg
      by_cases h : kv.2.results != []
      · simp only [h, if_true]
        rw [countItems_findings]
        simp [h]
      · simp only [h, Bool.false_eq_true, if_false]
        by_cases h2 : optStrTruthy kv.2.error = true <;> simp [h, h2]

theorem countAgg_incompat_imp_findings (l : List (String × AggResult)) :
    (l.foldl overallCountAgg {}).has_incompatible = true →
    (l.foldl overallCountAgg {}).has_findings = true := by
  intro h
  rw [countAgg_incompat] at h
  rw [countAgg_findings]
  simp only [Bool.false_or] at h ⊢
  rw [List.any_eq_true] at h ⊢
  rcases h with ⟨kv, hmem, hkv⟩
  refine ⟨kv, hmem, ?_⟩
  rw [List.any_eq_true] at hkv
  rcases hkv with ⟨i, hi, _⟩
  rcases hres : kv.2.results with _ | _
  · rw [hres] at hi; simp at hi
  · simp [hres]


/-! ### Claim C1 -/

theorem determineOverall_incompatible_iff
    (aggregated : List (String × AggResult))
    (combinedRecs combinedReasoning enabled : List String)
    (fbt : List (String × Nat)) (total : Nat) :
    (determineOverallCompatibility aggregated combinedRecs combinedReasoning
        enabled fbt total).overall_compatibility = "incompatible"
      ↔ (aggregated.foldl overallCountAgg {}).has_incompatible = true := by
  unfold determineOverallCompatibility
  simp only
  by_cases hf : (aggregated.foldl overallCountAgg {}).has_findings = true
  · by_cases hi : (aggregated.foldl overallCountAgg {}).has_incompatible = true
    · simp [hf, hi]
    · simp only [Bool.not_eq_true] at hi
      simp [hf, hi]
  · simp only [Bool.not_eq_true] at hf
    have hi : (aggregated.foldl overallCountAgg {}).has_incompatible = false := by
      by_contra h
      rw [Bool.not_eq_false] at h
      rw [countAgg_incompat_imp_findings aggregated h] at hf
      exact absurd hf (by simp)
    by_cases ht : total == 0
    · simp [hf, hi, ht]
    · simp only [beq_iff_eq] at ht
      have ht2 : total > 0 := Nat.pos_of_ne_zero ht
      simp [hf, hi, ht, ht2]

def c1Oracle : RegistryOracle :=
  { manifest := MResp.ok DOCKER_MANIFEST_LIST_V2_HEADER
      { manifests := some [{ platform := some { architecture := "amd64", os := "linux" } }] } }

/-- The per-analyzer outputs and verdict for one Dockerfile whose base
image manifest lists only linux/amd64. -/
def c1Agg : DockerAgg :=
  dockerAggregate (fun _ => c1Oracle)
    [dockerAnalyze none "FROM someorg/legacy:1.0" "Dockerfile"]

def c1Verdict : FinalResult :=
  determineOverallCompatibility [("docker_analysis", c1Agg.toAggResult)]
    c1Agg.recommendations c1Agg.reasoning ["docker"] [("docker", 1)] 1

/-- Claim C1 (counterexample): a container base image whose registry
check reports no linux/arm64 support does NOT make the verdict
incompatible.  For a repository with one Dockerfile `FROM
someorg/legacy:1.0` whose manifest lists only linux/amd64, the docker
aggregation reports the image as not natively ARM64-supported
(`arm64_support_native = False`, migration potential "Not Possible /
Very Difficult"), yet `_determine_overall_compatibility` returns
`overall_compatibility = "compatible"`, because docker assessments
carry no `compatible` key. -/
theorem c1_counterexample :
    (∃ a ∈ c1Agg.results, a.arm64_support_native = Compat.cfalse
      ∧ a.migration_potential = "Not Possible / Very Difficult") ∧
    c1Verdict.overall_compatibility = "compatible" := by
  constructor
  · decide
  · decide

/-- Claim C1 (amended): a Verdict has `overall_compatibility =
"incompatible"` iff at least one result item in some analyzer slot of
`analysis_details` carries the `compatible` key with Python value
`False`.  Infra and dependency findings carry that key; container
base-image assessments store the registry outcome under
`arm64_support_native` and carry no `compatible` key, so they are
counted as unknown and never make the verdict incompatible. -/
theorem c1_amended (aggregated : List (String × AggResult))
    (combinedRecs combinedReasoning enabled : List String)
    (fbt : List (String × Nat)) (total : Nat) :
    (determineOverallCompatibility aggregated combinedRecs combinedReasoning
        enabled fbt total).overall_compatibility = "incompatible"
      ↔ ∃ kv ∈ aggregated, ∃ item ∈ kv.2.results,
          item.compatibleField = some Compat.cfalse := by
  rw [determineOverall_incompatible_iff]
  rw [countAgg_incompat]
  simp only [Bool.false_or, List.any_eq_true, beq_iff_eq]


/-! ### Claim C2 -/

def c2TfContent : String := "instance_type = \"t3.large\"\n"

def c2Verdict : FinalResult :=
  analyzeRepoTerraformOnly [⟨"blob", "main.tf"⟩]
    (fun p => if p == "main.tf" then some c2TfContent else none)

/-- Claim C2 (code bug, evaluated at the failing input): for a
repository with a single `main.tf` containing
`instance_type = "t3.large"`, `analyze` does extract `t3.large`, but the
orchestrator spreads the analyze output at the TOP level of the per-file
record while `TerraformAnalyzer.aggregate_results` reads
`output.get("analysis", {})` — a key that is never written — so the
aggregation sees no instance types: the verdict is "unknown" (not
"compatible") and the replacement recommendation is absent.  The last
conjunct shows that the very same aggregation applied to a record that
DOES carry the `analysis` key produces exactly the claimed
recommendation, isolating the record shape as the defect. -/
theorem c2_code_bug_eval :
    (tfAnalyze c2TfContent).instance_types = ["t3.large"] ∧
    c2Verdict.overall_compatibility = "unknown" ∧
    c2Verdict.recommendations.contains
      "Replace `t3.large` with `t4g.large` in `main.tf`" = false ∧
    (tfAggregate [{ file := "main.tf", analysis := some (tfAnalyze c2TfContent) }]).recommendations
      = ["Replace `t3.large` with `t4g.large` in `main.tf`"] := by
  refine ⟨by decide, by decide, by decide, by decide⟩

/-! ### Claim C3 -/

/-- Claim C3 (code bug, evaluated at the failing input): for the
requirements line `requests>=2.0` — a name followed by a version
specifier beginning with `>=` — `parse_dependencies` produces an entry
whose `version_spec` is `None`, not `>=2.0` (its own docstring promises
`{"name": "requests", "version_spec": ">=2.0", ...}`): the code reads
`match.group(2)`, the extras group, instead of group 3.  The second
conjunct shows the same bug from the other side: with extras present,
`version_spec` becomes the extras text `[standard]`. -/
theorem c3_code_bug_eval :
    parse_dependencies_py "requests>=2.0" "requirements.txt"
      = [{ name := some "requests", version_spec := none,
           original_line := some "requests>=2.0",
           file := some "requirements.txt" }] ∧
    parse_dependencies_py "uvicorn[standard]>=0.15" "requirements.txt"
      = [{ name := some "uvicorn", version_spec := some "[standard]",
           original_line := some "uvicorn[standard]>=0.15",
           file := some "requirements.txt" }] := by
  refine ⟨by decide, by decide⟩

/-! ### Claim C4 -/

/-- Follows the words of the spec (§4.6.2 / Design note §9:
implementations MUST implement `^`, `~`, `>=`, … ranges with loose
parsing): caret-range satisfaction for major > 0,
`^X.Y.Z` = `>= X.Y.Z, < (X+1).0.0`. -/
def specSemverCaretSatisfies (range ver : String) : Bool :=
  if strStartsWith range "^" then
    match semverParse (strDrop range 1), semverParse ver with
    | some base, some v =>
        decide (base.major > 0) && !(semverLtB v base) && v.major == base.major
    | _, _ => false
  else false

def c4Data : NpmData := { versions := [("1.2.3", {})], distTagLatest := some "1.2.3" }

/-- Claim C4 (code bug, evaluated at the failing input): for the spec
`^1.2.0` with available version `1.2.3` (which satisfies the caret
range), `max_satisfying` returns nothing — its own docstring says it
must parse Node-style ranges but the body only supports exact matches —
so the check falls back to the dist-tag latest and reports
`spec_satisfied = False` with a fallback reason, although a satisfying
version was available and resolvable. -/
theorem c4_code_bug_eval :
    specSemverCaretSatisfies "^1.2.0" "1.2.3" = true ∧
    max_satisfying ["1.2.3"] "^1.2.0" = none ∧
    (jsCheckNpm [] "pkg" "^1.2.0" (NpmResp.ok c4Data)).1.spec_satisfied = some false ∧
    (jsCheckNpm [] "pkg" "^1.2.0" (NpmResp.ok c4Data)).1.checked_version = some "1.2.3" ∧
    (jsCheckNpm [] "pkg" "^1.2.0" (NpmResp.ok c4Data)).1.reason
      = "No version satisfied spec \x27^1.2.0\x27, fell back to latest (1.2.3)." := by
  refine ⟨by decide, by decide, by decide, by decide, by decide⟩

/-! ### Claim C5 -/

def c5VerdictEmptyTree : FinalResult := analyzeRepoTerraformOnly [] (fun _ => none)

def c5VerdictNoMatch : FinalResult :=
  analyzeRepoTerraformOnly [⟨"blob", "README.md"⟩, ⟨"tree", "src"⟩]
    (fun _ => some "hello")

/-- Claim C5 (counterexample): the empty-tree case and the
tree-present-but-no-pattern-matches case both yield
`overall_compatibility = "unknown"` with the SAME reasoning list —
headed by "No relevant files found for enabled analyzers." — not
different reasoning entries: both cases leave `total_files_analyzed` at
0, so they take the same branch of
`_determine_overall_compatibility`. -/
theorem c5_counterexample :
    c5VerdictEmptyTree.overall_compatibility = "unknown" ∧
    c5VerdictNoMatch.overall_compatibility = "unknown" ∧
    c5VerdictEmptyTree.reasoning = c5VerdictNoMatch.reasoning ∧
    c5VerdictEmptyTree.reasoning.head?
      = some "No relevant files found for enabled analyzers." := by
  refine ⟨by decide, by decide, by decide, by decide⟩

/-- Claim C5 (amended): both the empty tree and a non-empty tree with no
matching blob yield overall "unknown" with the SAME reasoning — a tree
whose blobs match no pattern produces the very verdict of the empty
tree; the distinct entry "No specific ARM64 compatibility indicators
found in analyzed files." appears only when at least one file was
actually analyzed while no analyzer produced findings. -/
theorem c5_amended (tree : List TreeItem) (content : String → Option String)
    (h : ∀ i ∈ tree, ¬ (i.type == "blob" && tfPathMatch i.path) = true) :
    (analyzeRepoTerraformOnly tree content
       = analyzeRepoTerraformOnly [] (fun _ => none) ∧
     (analyzeRepoTerraformOnly tree content).overall_compatibility = "unknown" ∧
     (analyzeRepoTerraformOnly tree content).reasoning.head?
       = some "No relevant files found for enabled analyzers.") ∧
    ∀ (aggregated : List (String × AggResult))
      (recs reas enabled : List String) (fbt : List (String × Nat)) (total : Nat),
      (∀ kv ∈ aggregated, kv.2.results = []) → total > 0 →
      (determineOverallCompatibility aggregated recs reas enabled fbt
          total).overall_compatibility = "unknown" ∧
      (determineOverallCompatibility aggregated recs reas enabled fbt
          total).reasoning.head?
        = some "No specific ARM64 compatibility indicators found in analyzed files." := by
  constructor
  · have hfe : tree.filter (fun i => i.type == "blob" && tfPathMatch i.path) = [] :=
      List.filter_eq_nil_iff.mpr h
    have heq : analyzeRepoTerraformOnly tree content
        = analyzeRepoTerraformOnly [] (fun _ => none) := by
      unfold analyzeRepoTerraformOnly
      rw [hfe]
      rfl
    refine ⟨heq, ?_, ?_⟩
    · rw [heq]; decide
    · rw [heq]; decide
  · intro aggregated recs reas enabled fbt total hempty htotal
    have hf : (aggregated.foldl overallCountAgg {}).has_findings = false := by
      rw [countAgg_findings]
      simp only [Bool.false_or, List.any_eq_false]
      intro kv hkv
      simp [hempty kv hkv]
    have hz : ¬ (total == 0) = true := by
      simp only [beq_iff_eq]
      omega
    constructor
    · unfold determineOverallCompatibility
      simp [hf, hz, htotal]
    · unfold determineOverallCompatibility
      simp only [hf, hz, htotal, Bool.not_false, Bool.true_and, if_false,
        decide_eq_true_eq, if_true]
      simp [dedupFirst, dedupFirstAux, hf, hz, htotal]

/-- Witness for the amended C5 at concrete inputs. -/
theorem c5_amended_witness :
    (analyzeRepoTerraformOnly [⟨"blob", "README.md"⟩] (fun _ => some "hello")
       = analyzeRepoTerraformOnly [] (fun _ => none)) ∧
    (determineOverallCompatibility [("instance_types", {})] [] [] ["terraform"]
        [("terraform", 1)] 1).overall_compatibility = "unknown" := by
  have h := c5_amended [⟨"blob", "README.md"⟩] (fun _ => some "hello") (by decide)
  exact ⟨h.1.1,
    (h.2 [("instance_types", {})] [] [] ["terraform"] [("terraform", 1)] 1
      (by intro kv hkv; simp at hkv; rw [hkv]) (by decide)).1⟩

/-! ### Claim C6 -/

/-- Claim C6: every network, HTTP, or parse failure inside the three
registry clients is caught there and converted into a
compatibility-"unknown" result whose reason string describes the
failure; the raw exception never propagates.  Docker: any non-success
HTTP status, request exception, or unexpected exception in the manifest
phase (for an image that is neither `scratch` nor on an ECR registry —
the only branches that reach the network).  PyPI: non-200 statuses,
`RequestException`, and the blanket `except Exception`.  npm:
`RequestException`, `json.JSONDecodeError`, and the blanket
`except Exception`. -/
theorem c6_errors_contained (img : String) (tok : Option String) (cfg : CResp)
    (status : Nat) (msg pkg jspec : String) (pspec : PySpecInput)
    (h1 : (dockerManifestCacheKey img == "scratch:latest"
            || dockerManifestCacheKey img == "scratch") = false)
    (h2 : ((dockerParseImageName (dockerManifestCacheKey img)).1 != DOCKER_HUB_REGISTRY
            && (dockerParseImageName (dockerManifestCacheKey img)).1 != "scratch"
            && strEndsWith (dockerParseImageName (dockerManifestCacheKey img)).1
                 "amazonaws.com") = false) :
    ((dockerCheckManifest ⟨tok, .httpError status msg, cfg⟩ img).compatible = .cunknown ∧
     (dockerCheckManifest ⟨tok, .netError msg, cfg⟩ img).compatible = .cunknown ∧
     (dockerCheckManifest ⟨tok, .netError msg, cfg⟩ img).reason
       = "Network error checking manifest: " ++ msg ∧
     (dockerCheckManifest ⟨tok, .exn msg, cfg⟩ img).compatible = .cunknown ∧
     (dockerCheckManifest ⟨tok, .exn msg, cfg⟩ img).reason
       = "Unexpected error checking manifest: " ++ msg) ∧
    ((pypiCheck [] pkg pspec (.statusOther status)).1.compatible = .cunknown ∧
     (pypiCheck [] pkg pspec (.statusOther status)).1.reason
       = "PyPI API error: HTTP " ++ toString status ∧
     (pypiCheck [] pkg pspec (.netError msg)).1.compatible = .cunknown ∧
     (pypiCheck [] pkg pspec (.netError msg)).1.reason
       = "Network error checking PyPI: " ++ msg ∧
     (pypiCheck [] pkg pspec (.exn msg)).1.compatible = .cunknown ∧
     (pypiCheck [] pkg pspec (.exn msg)).1.reason
       = "Unexpected error during PyPI check: " ++ msg) ∧
    ((jsCheckNpm [] pkg jspec (.netError msg)).1.compatible = .cunknown ∧
     (jsCheckNpm [] pkg jspec (.netError msg)).1.reason
       = "Network error checking NPM: " ++ msg ∧
     (jsCheckNpm [] pkg jspec (.jsonError msg)).1.compatible = .cunknown ∧
     (jsCheckNpm [] pkg jspec (.jsonError msg)).1.reason
       = "Failed to parse NPM registry response." ∧
     (jsCheckNpm [] pkg jspec (.exn msg)).1.compatible = .cunknown ∧
     (jsCheckNpm [] pkg jspec (.exn msg)).1.reason
       = "Unexpected error during JS compatibility check: " ++ msg) := by
  refine ⟨?_, ?_, ?_⟩
  · simp only [dockerCheckManifest, h1, h2, Bool.false_eq_true, if_false]
    exact ⟨trivial, trivial, trivial, trivial, trivial⟩
  · exact ⟨rfl, rfl, rfl, rfl, rfl, rfl⟩
  · exact ⟨rfl, rfl, rfl, rfl, rfl, rfl⟩

/-- Witness for C6 at concrete inputs. -/
theorem c6_errors_contained_witness :
    ((dockerCheckManifest ⟨none, .httpError 500 "boom", .fail ""⟩ "ubuntu:22.04").compatible = .cunknown ∧
     (dockerCheckManifest ⟨none, .netError "boom", .fail ""⟩ "ubuntu:22.04").compatible = .cunknown ∧
     (dockerCheckManifest ⟨none, .netError "boom", .fail ""⟩ "ubuntu:22.04").reason
       = "Network error checking manifest: " ++ "boom" ∧
     (dockerCheckManifest ⟨none, .exn "boom", .fail ""⟩ "ubuntu:22.04").compatible = .cunknown ∧
     (dockerCheckManifest ⟨none, .exn "boom", .fail ""⟩ "ubuntu:22.04").reason
       = "Unexpected error checking manifest: " ++ "boom") ∧
    ((pypiCheck [] "requests" .noSpec (.statusOther 500)).1.compatible = .cunknown ∧
     (pypiCheck [] "requests" .noSpec (.statusOther 500)).1.reason
       = "PyPI API error: HTTP " ++ toString 500 ∧
     (pypiCheck [] "requests" .noSpec (.netError "boom")).1.compatible = .cunknown ∧
     (pypiCheck [] "requests" .noSpec (.netError "boom")).1.reason
       = "Network error checking PyPI: " ++ "boom" ∧
     (pypiCheck [] "requests" .noSpec (.exn "boom")).1.compatible = .cunknown ∧
     (pypiCheck [] "requests" .noSpec (.exn "boom")).1.reason
       = "Unexpected error during PyPI check: " ++ "boom") ∧
    ((jsCheckNpm [] "requests" "^1.0.0" (.netError "boom")).1.compatible = .cunknown ∧
     (jsCheckNpm [] "requests" "^1.0.0" (.netError "boom")).1.reason
       = "Network error checking NPM: " ++ "boom" ∧
     (jsCheckNpm [] "requests" "^1.0.0" (.jsonError "boom")).1.compatible = .cunknown ∧
     (jsCheckNpm [] "requests" "^1.0.0" (.jsonError "boom")).1.reason
       = "Failed to parse NPM registry response." ∧
     (jsCheckNpm [] "requests" "^1.0.0" (.exn "boom")).1.compatible = .cunknown ∧
     (jsCheckNpm [] "requests" "^1.0.0" (.exn "boom")).1.reason
       = "Unexpected error during JS compatibility check: " ++ "boom") :=
  c6_errors_contained "ubuntu:22.04" none (.fail "") 500 "boom" "requests"
    "^1.0.0" .noSpec (by decide) (by decide)

/-! ### Claim C9 -/

def c9JsFirst : NpmResult × List (String × NpmResult) × Bool :=
  jsCheckNpm [] "left-pad" "^1.0.0" (.netError "timeout")

def c9JsSecond : NpmResult × List (String × NpmResult) × Bool :=
  jsCheckNpm c9JsFirst.2.1 "left-pad" "^1.0.0" (.netError "timeout")

/-- Claim C9 (code bug, evaluated at the failing input): network errors
are NOT effectively cached against retries in either client.  PyPI
side: the `RequestException` handler returns without writing to
`self.pypi_cache`, so after a network error the cache is unchanged and
a second identical call issues another request.  npm side: the error
result IS written under the `name@spec` key, but the cache-hit guard
accepts an entry only when `spec_satisfied` is `False` or its status is
`error`, and error entries carry `spec_satisfied = None` with status
`unknown`, so the second call misses the guard and issues another
request anyway. -/
theorem c9_code_bug_eval :
    (pypiCheck [] "requests" .noSpec (.netError "timeout")).2.1 = [] ∧
    (pypiCheck [] "requests" .noSpec (.netError "timeout")).2.2 = true ∧
    (pypiCheck (pypiCheck [] "requests" .noSpec (.netError "timeout")).2.1
        "requests" .noSpec (.netError "timeout")).2.2 = true ∧
    c9JsFirst.2.2 = true ∧
    lookupAssoc c9JsFirst.2.1 "left-pad@^1.0.0" = some c9JsFirst.1 ∧
    c9JsFirst.1.spec_satisfied = none ∧
    c9JsFirst.1.compatible = .cunknown ∧
    c9JsSecond.2.2 = true := by
  refine ⟨rfl, rfl, rfl, rfl, by decide, rfl, rfl, by decide⟩

/-! ### Claim C7 -/

def c7Spec : List PySpecifier := [⟨PyOp.ge, ⟨[1, 0], none⟩⟩]
def c7PreVer : PyVer := ⟨[2, 0], some (0, 1)⟩

/-- Claim C7 (counterexample): for the specifier `>=1.0` — which does
not permit pre-releases under the default PEP 440 containment the spec
appeals to — and available versions {1.0, 2.0a1}, the check resolves
2.0a1: the code always filters with `prereleases=True`, so the resolved
version is a pre-release that does NOT satisfy the specifier in the
spec-permitted sense, although the final release 1.0 does. -/
theorem c7_counterexample :
    pypiResolve c7Spec [⟨[1, 0], none⟩, c7PreVer] = some c7PreVer ∧
    c7PreVer.pre.isSome = true ∧
    specSetContainsDefault c7Spec c7PreVer = false ∧
    specSetContainsDefault c7Spec ⟨[1, 0], none⟩ = true := by
  refine ⟨by decide, by decide, by decide, by decide⟩

/-- Claim C7 (amended): whenever at least one available version
satisfies the specifier set under the containment the code actually
uses (`prereleases=True`, i.e. pre-releases are always considered,
whether or not the specifier permits them), the resolved version
satisfies the specifier set in that same sense, is one of the available
versions, and is greater than or equal to every available version that
satisfies it. -/
theorem c7_amended (specs : List PySpecifier) (candidates : List PyVer)
    (h : candidates.filter (specSetContainsPre specs) ≠ []) :
    ∃ m, pypiResolve specs candidates = some m ∧
      specSetContainsPre specs m = true ∧ m ∈ candidates ∧
      ∀ v ∈ candidates, specSetContainsPre specs v = true → pvLeB v m = true := by
  unfold pypiResolve
  rcases hl : candidates.filter (specSetContainsPre specs) with _ | ⟨a, rest⟩
  · exact absurd hl h
  · refine ⟨pvMax a rest, rfl, ?_, ?_, ?_⟩
    · have hm : pvMax a rest ∈ a :: rest := pvMax_mem a rest
      rw [← hl] at hm
      exact List.of_mem_filter hm
    · have hm : pvMax a rest ∈ a :: rest := pvMax_mem a rest
      rw [← hl] at hm
      exact List.mem_of_mem_filter hm
    · intro v hv hvsat
      have hvin : v ∈ a :: rest := by
        rw [← hl]
        exact List.mem_filter.mpr ⟨hv, hvsat⟩
      exact pvMax_ge a rest v hvin

/-- Witness for the amended C7 at a concrete input. -/
theorem c7_amended_witness :
    ∃ m, pypiResolve c7Spec [⟨[1, 0], none⟩, c7PreVer] = some m ∧
      specSetContainsPre c7Spec m = true ∧ m ∈ [⟨[1, 0], none⟩, c7PreVer] ∧
      ∀ v ∈ [(⟨[1, 0], none⟩ : PyVer), c7PreVer],
        specSetContainsPre c7Spec v = true → pvLeB v m = true :=
  c7_amended c7Spec [⟨[1, 0], none⟩, c7PreVer] (by decide)

/-! ### Claim C10 -/

/-- Claim C10: `DockerAnalyzer.analyze` is total — for every content
string (and every internal-error outcome) it returns a record with the
`file`, `base_images_info` and `arch_specific_lines` keys — and on an
internal parsing error it returns an empty base-image list plus the
sentinel `ERROR parsing file`, which aggregation pass 1 then collects
into `all_arch_specific_lines` exactly like an ordinary arch-sensitive
line. -/
theorem c10_docker_analyze_total (err : Option String)
    (content path msg : String) :
    (dockerAnalyze err content path).file = path ∧
    (dockerAnalyze (some msg) content path).base_images_info = [] ∧
    (dockerAnalyze (some msg) content path).arch_specific_lines
      = ["ERROR parsing file"] ∧
    dockerCollectArch [dockerAnalyze (some msg) content path]
      = [("ERROR parsing file", [path])] := by
  refine ⟨?_, rfl, rfl, rfl⟩
  cases err <;> rfl


/-! ### Claim C8: permutation invariance of aggregation -/

/-- Componentwise concatenation of terraform aggregation states. -/
def tfStAppend (s t : TfAggState) : TfAggState :=
  { processed := s.processed ++ t.processed,
    results := s.results ++ t.results,
    recs := s.recs ++ t.recs,
    reasoning := s.reasoning ++ t.reasoning }

theorem tfStAppend_empty (s : TfAggState) : tfStAppend s {} = s := by
  simp [tfStAppend]

theorem tfStepType_eq_skip (f : String) (st : TfAggState) (x : String)
    (h : st.processed.contains x = true) : tfStepType f st x = st := by
  have h2 : x ∈ st.processed := by simpa using h
  simp [tfStepType, h2]

theorem tfStepType_eq_add (f : String) (st : TfAggState) (x : String)
    (h : st.processed.contains x = false) :
    tfStepType f st x =
      { processed := st.processed ++ [x],
        results := st.results ++ [(tfProcessOne f x).1],
        recs := st.recs ++ (tfProcessOne f x).2.1,
        reasoning := st.reasoning ++ (tfProcessOne f x).2.2 } := by
  have h2 : x ∉ st.processed := by simpa using h
  rcases hp : tfProcessOne f x with ⟨item, recs, reasons⟩
  simp [tfStepType, h2, hp]

theorem tfStepType_append (f : String) (s t : TfAggState) (x : String)
    (hx : x ∉ s.processed) :
    tfStepType f (tfStAppend s t) x = tfStAppend s (tfStepType f t x) := by
  by_cases ht : x ∈ t.processed
  · have h1 : (tfStAppend s t).processed.contains x = true := by
      simp [tfStAppend, ht]
    have h2 : t.processed.contains x = true := by simp [ht]
    rw [tfStepType_eq_skip f _ x h1, tfStepType_eq_skip f t x h2]
  · have h1 : (tfStAppend s t).processed.contains x = false := by
      simp [tfStAppend, hx, ht]
    have h2 : t.processed.contains x = false := by simp [ht]
    rw [tfStepType_eq_add f _ x h1, tfStepType_eq_add f t x h2]
    simp [tfStAppend]

theorem tfFoldTypes_append (f : String) :
    ∀ (ts : List String) (s t : TfAggState),
    (∀ x ∈ ts, x ∉ s.processed) →
    ts.foldl (tfStepType f) (tfStAppend s t) = tfStAppend s (ts.foldl (tfStepType f) t)
  | [], _, _, _ => rfl
  | x :: ts, s, t, h => by
      have hx : x ∉ s.processed := h x (by simp)
      rw [List.foldl_cons, List.foldl_cons, tfStepType_append f s t x hx]
      exact tfFoldTypes_append f ts s (tfStepType f t x)
        (fun y hy => h y (by simp [hy]))

theorem tfFoldTypes_processed (f : String) :
    ∀ (ts : List String) (t : TfAggState) (x : String),
    x ∈ (ts.foldl (tfStepType f) t).processed → x ∈ t.processed ∨ x ∈ ts
  | [], _, _, h => Or.inl h
  | y :: ts, t, x, h => by
      rw [List.foldl_cons] at h
      rcases tfFoldTypes_processed f ts (tfStepType f t y) x h with h1 | h1
      · by_cases hc : t.processed.contains y = true
        · rw [tfStepType_eq_skip f t y hc] at h1
          exact Or.inl h1
        · rw [tfStepType_eq_add f t y (by simp_all)] at h1
          rcases List.mem_append.mp h1 with h2 | h2
          · exact Or.inl h2
          · simp at h2
            simp [h2]
      · simp [h1]

theorem tfStepOutput_append (s : TfAggState) (o : TfRecord)
    (h : ∀ x ∈ tfTypesOf o, x ∉ s.processed) :
    tfStepOutput s o = tfStAppend s (tfStepOutput {} o) := by
  have h2 := tfFoldTypes_append o.file (tfTypesOf o) s {} h
  rw [tfStAppend_empty] at h2
  exact h2

theorem tfStepOutput_processed (o : TfRecord) (s : TfAggState) (x : String)
    (h : x ∈ (tfStepOutput s o).processed) : x ∈ s.processed ∨ x ∈ tfTypesOf o :=
  tfFoldTypes_processed o.file (tfTypesOf o) s x h

/-- Two terraform per-file records mention disjoint instance-type sets. -/
def tfDisjoint (a b : TfRecord) : Prop := ∀ x ∈ tfTypesOf a, x ∉ tfTypesOf b

theorem tfDisjoint_symm : Symmetric tfDisjoint :=
  fun _ _ h x hxb hxa => h x hxa hxb

theorem tfFoldOutputs_recs :
    ∀ (l : List TfRecord) (s : TfAggState),
    l.Pairwise tfDisjoint →
    (∀ o ∈ l, ∀ x ∈ tfTypesOf o, x ∉ s.processed) →
    (l.foldl tfStepOutput s).recs
      = s.recs ++ l.flatMap (fun o => (tfStepOutput {} o).recs)
  | [], s, _, _ => by simp
  | o :: l, s, hp, hs => by
      rcases List.pairwise_cons.mp hp with ⟨ho, hl⟩
      rw [List.foldl_cons, tfStepOutput_append s o (hs o (by simp))]
      have hnext : ∀ o2 ∈ l, ∀ x ∈ tfTypesOf o2,
          x ∉ (tfStAppend s (tfStepOutput {} o)).processed := by
        intro o2 ho2 x hx hmem
        rcases List.mem_append.mp hmem with h1 | h1
        · exact hs o2 (by simp [ho2]) x hx h1
        · rcases tfStepOutput_processed o {} x h1 with h0 | h0
          · simp at h0
          · exact absurd hx (ho o2 ho2 x h0)
      rw [tfFoldOutputs_recs l _ hl hnext]
      simp [tfStAppend]

theorem tfAggregate_perm_recs {l₁ l₂ : List TfRecord} (hp : List.Perm l₁ l₂)
    (hd : l₁.Pairwise tfDisjoint) :
    (tfAggregate l₁).recommendations = (tfAggregate l₂).recommendations := by
  have hd₂ : l₂.Pairwise tfDisjoint :=
    (hp.pairwise_iff (fun hxy => tfDisjoint_symm hxy)).mp hd
  have h₁ := tfFoldOutputs_recs l₁ {} hd (fun o _ x _ hx => List.not_mem_nil x hx)
  have h₂ := tfFoldOutputs_recs l₂ {} hd₂ (fun o _ x _ hx => List.not_mem_nil x hx)
  show pySortedSet (l₁.foldl tfStepOutput {}).recs
    = pySortedSet (l₂.foldl tfStepOutput {}).recs
  rw [h₁, h₂]
  simp only [List.nil_append]
  exact pySortedSet_eq_of_perm (hp.flatMap_right _)

/-- Keys of an insertion-ordered association list. -/
def aKeys {β : Type} (m : List (String × β)) : List String := m.map Prod.fst

theorem aKeys_append {β : Type} (m1 m2 : List (String × β)) :
    aKeys (m1 ++ m2) = aKeys m1 ++ aKeys m2 := by
  simp [aKeys]

theorem eq_of_mem_nodup_keys {β : Type} :
    ∀ (m : List (String × β)), (aKeys m).Nodup →
    ∀ p ∈ m, ∀ q ∈ m, p.1 = q.1 → p = q
  | [], _, p, hp, _, _, _ => absurd hp (List.not_mem_nil p)
  | a :: m, h, p, hp, q, hq, hpq => by
      rcases List.nodup_cons.mp h with ⟨ha, hm⟩
      rcases List.mem_cons.mp hp with hp1 | hp1 <;>
        rcases List.mem_cons.mp hq with hq1 | hq1
      · rw [hp1, hq1]
      · exfalso
        apply ha
        rw [← hp1, hpq]
        exact List.mem_map_of_mem Prod.fst hq1
      · exfalso
        apply ha
        rw [← hq1, ← hpq]
        exact List.mem_map_of_mem Prod.fst hp1
      · exact eq_of_mem_nodup_keys m hm p hp1 q hq1 hpq

/-- The keys an item list contributes to the map. -/
def blockKeys {β ι : Type} (u : List (String × β) → ι → List (String × β))
    (keyOf : ι → Option String) (its : List ι) : List String :=
  its.filterMap keyOf

theorem aFold_append {β ι : Type} (u : List (String × β) → ι → List (String × β))
    (keyOf : ι → Option String)
    (hskip : ∀ m i, keyOf i = none → u m i = m)
    (hsplit : ∀ (m1 m2 : List (String × β)) i k, keyOf i = some k → k ∉ aKeys m1 →
      u (m1 ++ m2) i = m1 ++ u m2 i) :
    ∀ (its : List ι) (m1 m2 : List (String × β)),
    (∀ i ∈ its, ∀ k, keyOf i = some k → k ∉ aKeys m1) →
    its.foldl u (m1 ++ m2) = m1 ++ its.foldl u m2
  | [], _, _, _ => rfl
  | i :: its, m1, m2, h => by
      rw [List.foldl_cons, List.foldl_cons]
      have hstep : u (m1 ++ m2) i = m1 ++ u m2 i := by
        cases hk : keyOf i with
        | none => rw [hskip _ i hk, hskip m2 i hk]
        | some k => exact hsplit m1 m2 i k hk (h i (by simp) k hk)
      rw [hstep]
      exact aFold_append u keyOf hskip hsplit its m1 (u m2 i)
        (fun j hj => h j (by simp [hj]))

theorem aFold_keys {β ι : Type} (u : List (String × β) → ι → List (String × β))
    (keyOf : ι → Option String)
    (hkeys : ∀ m i x, x ∈ aKeys (u m i) → x ∈ aKeys m ∨ keyOf i = some x) :
    ∀ (its : List ι) (m : List (String × β)) (x : String),
    x ∈ aKeys (its.foldl u m) → x ∈ aKeys m ∨ x ∈ blockKeys u keyOf its
  | [], _, _, h => Or.inl h
  | i :: its, m, x, h => by
      rw [List.foldl_cons] at h
      rcases aFold_keys u keyOf hkeys its (u m i) x h with h1 | h1
      · rcases hkeys m i x h1 with h2 | h2
        · exact Or.inl h2
        · exact Or.inr (List.mem_filterMap.mpr ⟨i, by simp, h2⟩)
      · rcases List.mem_filterMap.mp h1 with ⟨j, hj, hjk⟩
        exact Or.inr (List.mem_filterMap.mpr ⟨j, by simp [hj], hjk⟩)

theorem aFold_nodup {β ι : Type} (u : List (String × β) → ι → List (String × β))
    (hnodup : ∀ m i, (aKeys m).Nodup → (aKeys (u m i)).Nodup) :
    ∀ (its : List ι) (m : List (String × β)),
    (aKeys m).Nodup → (aKeys (its.foldl u m)).Nodup
  | [], _, h => h
  | i :: its, m, h => by
      rw [List.foldl_cons]
      exact aFold_nodup u hnodup its (u m i) (hnodup m i h)

theorem aFoldOutputs_blocks {β ι O : Type}
    (u : List (String × β) → ι → List (String × β)) (keyOf : ι → Option String)
    (items : O → List ι)
    (hskip : ∀ m i, keyOf i = none → u m i = m)
    (hsplit : ∀ (m1 m2 : List (String × β)) i k, keyOf i = some k → k ∉ aKeys m1 →
      u (m1 ++ m2) i = m1 ++ u m2 i)
    (hkeys : ∀ m i x, x ∈ aKeys (u m i) → x ∈ aKeys m ∨ keyOf i = some x) :
    ∀ (l : List O) (m : List (String × β)),
    l.Pairwise (fun a b => ∀ k ∈ blockKeys u keyOf (items a),
      k ∉ blockKeys u keyOf (items b)) →
    (∀ o ∈ l, ∀ k ∈ blockKeys u keyOf (items o), k ∉ aKeys m) →
    l.foldl (fun st o => (items o).foldl u st) m
      = m ++ l.flatMap (fun o => (items o).foldl u [])
  | [], m, _, _ => by simp
  | o :: l, m, hp, hm => by
      rcases List.pairwise_cons.mp hp with ⟨ho, hl⟩
      rw [List.foldl_cons]
      have hblock : (items o).foldl u m = m ++ (items o).foldl u [] := by
        have h0 := aFold_append u keyOf hskip hsplit (items o) m []
          (fun i hi k hk =>
            hm o (by simp) k (List.mem_filterMap.mpr ⟨i, hi, hk⟩))
        simpa using h0
      rw [hblock]
      have hm2 : ∀ o2 ∈ l, ∀ k ∈ blockKeys u keyOf (items o2),
          k ∉ aKeys (m ++ (items o).foldl u []) := by
        intro o2 ho2 k hk hmem
        rw [aKeys_append] at hmem
        rcases List.mem_append.mp hmem with h1 | h1
        · exact hm o2 (by simp [ho2]) k hk h1
        · rcases aFold_keys u keyOf hkeys (items o) [] k h1 with h2 | h2
          · simp [aKeys] at h2
          · exact ho o2 ho2 k h2 hk
      rw [aFoldOutputs_blocks u keyOf items hskip hsplit hkeys l _ hl hm2]
      simp

theorem aFoldOutputs_nodup {β ι O : Type}
    (u : List (String × β) → ι → List (String × β)) (items : O → List ι)
    (hnodup : ∀ m i, (aKeys m).Nodup → (aKeys (u m i)).Nodup) :
    ∀ (l : List O) (m : List (String × β)),
    (aKeys m).Nodup →
    (aKeys (l.foldl (fun st o => (items o).foldl u st) m)).Nodup
  | [], _, h => h
  | o :: l, m, h => by
      rw [List.foldl_cons]
      exact aFoldOutputs_nodup u items hnodup l _
        (aFold_nodup u hnodup (items o) m h)

theorem aKeys_cons {β : Type} (p : String × β) (m : List (String × β)) :
    aKeys (p :: m) = p.1 :: aKeys m := rfl

theorem imgUpdate_aKeys :
    ∀ (m : List (String × ImgData)) (key file : String) (plat : Option String),
    aKeys (imgUpdate m key file plat)
      = if key ∈ aKeys m then aKeys m else aKeys m ++ [key]
  | [], key, _, _ => by simp [imgUpdate, aKeys]
  | (k, d) :: m, key, file, plat => by
      by_cases hk : (k == key) = true
      · have he : k = key := beq_iff_eq.mp hk
        subst he
        simp [imgUpdate, aKeys_cons]
      · have hne : k ≠ key := by simpa using hk
        have hlhs : aKeys (imgUpdate ((k, d) :: m) key file plat)
            = k :: aKeys (imgUpdate m key file plat) := by
          simp [imgUpdate, hk, aKeys_cons]
        rw [hlhs, imgUpdate_aKeys m key file plat, aKeys_cons]
        by_cases hmem : key ∈ aKeys m
        · rw [if_pos hmem, if_pos (List.mem_cons.mpr (Or.inr hmem))]
        · rw [if_neg hmem, if_neg (by
            intro hmem2
            rcases List.mem_cons.mp hmem2 with he | he
            · exact hne he.symm
            · exact hmem he)]
          rfl

theorem imgUpdate_append :
    ∀ (m1 m2 : List (String × ImgData)) (key file : String) (plat : Option String),
    key ∉ aKeys m1 →
    imgUpdate (m1 ++ m2) key file plat = m1 ++ imgUpdate m2 key file plat
  | [], _, _, _, _, _ => rfl
  | (k, d) :: m1, m2, key, file, plat, h => by
      have h1 : ¬ (key = k ∨ key ∈ aKeys m1) := by
        simpa [aKeys_cons] using h
      have hk : (k == key) = false := by
        simp only [beq_eq_false_iff_ne]
        intro he
        exact h1 (Or.inl he.symm)
      simp only [List.cons_append, imgUpdate, hk, Bool.false_eq_true, if_false]
      exact congrArg (fun t => (k, d) :: t)
        (imgUpdate_append m1 m2 key file plat (fun hmem => h1 (Or.inr hmem)))

theorem archUpdate_aKeys :
    ∀ (m : List (String × List String)) (line file : String),
    aKeys (archUpdate m line file)
      = if line ∈ aKeys m then aKeys m else aKeys m ++ [line]
  | [], _, _ => by simp [archUpdate, aKeys]
  | (k, fs) :: m, line, file => by
      by_cases hk : (k == line) = true
      · have he : k = line := beq_iff_eq.mp hk
        subst he
        simp [archUpdate, aKeys_cons]
      · have hne : k ≠ line := by simpa using hk
        have hlhs : aKeys (archUpdate ((k, fs) :: m) line file)
            = k :: aKeys (archUpdate m line file) := by
          simp [archUpdate, hk, aKeys_cons]
        rw [hlhs, archUpdate_aKeys m line file, aKeys_cons]
        by_cases hmem : line ∈ aKeys m
        · rw [if_pos hmem, if_pos (List.mem_cons.mpr (Or.inr hmem))]
        · rw [if_neg hmem, if_neg (by
            intro hmem2
            rcases List.mem_cons.mp hmem2 with he | he
            · exact hne he.symm
            · exact hmem he)]
          rfl

theorem archUpdate_append :
    ∀ (m1 m2 : List (String × List String)) (line file : String),
    line ∉ aKeys m1 →
    archUpdate (m1 ++ m2) line file = m1 ++ archUpdate m2 line file
  | [], _, _, _, _ => rfl
  | (k, fs) :: m1, m2, line, file, h => by
      have h1 : ¬ (line = k ∨ line ∈ aKeys m1) := by
        simpa [aKeys_cons] using h
      have hk : (k == line) = false := by
        simp only [beq_eq_false_iff_ne]
        intro he
        exact h1 (Or.inl he.symm)
      simp only [List.cons_append, archUpdate, hk, Bool.false_eq_true, if_false]
      exact congrArg (fun t => (k, fs) :: t)
        (archUpdate_append m1 m2 line file (fun hmem => h1 (Or.inr hmem)))

/-- One base-image occurrence of aggregation pass 1 as a (file, info)
item. -/
def imgItemKey (it : String × BaseImageInfo) : Option String :=
  if it.2.name == "" then none else some (dockerDictKey it.2.name)

def imgItemUpd (m : List (String × ImgData)) (it : String × BaseImageInfo) :
    List (String × ImgData) :=
  if it.2.name == "" then m
  else imgUpdate m (dockerDictKey it.2.name) it.1 it.2.platform_used

def imgItems (o : DockerFileOutput) : List (String × BaseImageInfo) :=
  o.base_images_info.map (fun img => (o.file, img))

/-- The normalized image keys one per-file output contributes. -/
def dockerImgKeys (o : DockerFileOutput) : List String :=
  (imgItems o).filterMap imgItemKey

/-- One arch-specific line of aggregation pass 1 as a (file, line)
item. -/
def archItemKey (it : String × String) : Option String := some it.2

def archItemUpd (m : List (String × List String)) (it : String × String) :
    List (String × List String) :=
  archUpdate m it.2 it.1

def archItems (o : DockerFileOutput) : List (String × String) :=
  o.arch_specific_lines.map (fun line => (o.file, line))

/-- The arch-specific line keys one per-file output contributes. -/
def dockerArchKeys (o : DockerFileOutput) : List String :=
  (archItems o).filterMap archItemKey

theorem dockerCollectImages_eq (l : List DockerFileOutput) :
    dockerCollectImages l
      = l.foldl (fun st o => (imgItems o).foldl imgItemUpd st) [] := by
  unfold dockerCollectImages
  refine List.foldl_ext _ _ [] ?_
  intro m o _
  unfold dockerCollectImagesStep imgItems
  rw [List.foldl_map]
  rfl

theorem dockerCollectArch_eq (l : List DockerFileOutput) :
    dockerCollectArch l
      = l.foldl (fun st o => (archItems o).foldl archItemUpd st) [] := by
  unfold dockerCollectArch
  refine List.foldl_ext _ _ [] ?_
  intro m o _
  unfold dockerCollectArchStep archItems
  rw [List.foldl_map]
  rfl

theorem imgItem_skip : ∀ (m : List (String × ImgData)) (it : String × BaseImageInfo),
    imgItemKey it = none → imgItemUpd m it = m := by
  intro m it h
  unfold imgItemKey at h
  unfold imgItemUpd
  by_cases hn : (it.2.name == "") = true
  · rw [if_pos hn]
  · rw [if_neg hn] at h
    exact absurd h (by simp)

theorem imgItem_split : ∀ (m1 m2 : List (String × ImgData))
    (it : String × BaseImageInfo) (k : String),
    imgItemKey it = some k → k ∉ aKeys m1 →
    imgItemUpd (m1 ++ m2) it = m1 ++ imgItemUpd m2 it := by
  intro m1 m2 it k hk hmem
  unfold imgItemKey at hk
  by_cases hn : (it.2.name == "") = true
  · rw [if_pos hn] at hk
    exact absurd hk (by simp)
  · rw [if_neg hn] at hk
    have hkk : dockerDictKey it.2.name = k := by
      exact Option.some.inj hk
    unfold imgItemUpd
    rw [if_neg hn, if_neg hn, hkk]
    exact imgUpdate_append m1 m2 k it.1 it.2.platform_used hmem

theorem imgItem_keys : ∀ (m : List (String × ImgData))
    (it : String × BaseImageInfo) (x : String),
    x ∈ aKeys (imgItemUpd m it) → x ∈ aKeys m ∨ imgItemKey it = some x := by
  intro m it x h
  unfold imgItemUpd at h
  by_cases hn : (it.2.name == "") = true
  · rw [if_pos hn] at h
    exact Or.inl h
  · rw [if_neg hn] at h
    rw [imgUpdate_aKeys] at h
    by_cases hm2 : dockerDictKey it.2.name ∈ aKeys m
    · rw [if_pos hm2] at h
      exact Or.inl h
    · rw [if_neg hm2] at h
      rcases List.mem_append.mp h with h1 | h1
      · exact Or.inl h1
      · simp at h1
        refine Or.inr ?_
        unfold imgItemKey
        rw [if_neg hn, h1]

theorem imgItem_nodup : ∀ (m : List (String × ImgData))
    (it : String × BaseImageInfo),
    (aKeys m).Nodup → (aKeys (imgItemUpd m it)).Nodup := by
  intro m it h
  unfold imgItemUpd
  by_cases hn : (it.2.name == "") = true
  · rw [if_pos hn]; exact h
  · rw [if_neg hn, imgUpdate_aKeys]
    by_cases hm2 : dockerDictKey it.2.name ∈ aKeys m
    · rw [if_pos hm2]; exact h
    · rw [if_neg hm2]
      simp [List.nodup_append, h, hm2]

theorem archItem_skip : ∀ (m : List (String × List String)) (it : String × String),
    archItemKey it = none → archItemUpd m it = m := by
  intro m it h
  exact absurd h (by simp [archItemKey])

theorem archItem_split : ∀ (m1 m2 : List (String × List String))
    (it : String × String) (k : String),
    archItemKey it = some k → k ∉ aKeys m1 →
    archItemUpd (m1 ++ m2) it = m1 ++ archItemUpd m2 it := by
  intro m1 m2 it k hk hmem
  have hkk : it.2 = k := Option.some.inj hk
  unfold archItemUpd
  rw [hkk]
  exact archUpdate_append m1 m2 k it.1 hmem

theorem archItem_keys : ∀ (m : List (String × List String))
    (it : String × String) (x : String),
    x ∈ aKeys (archItemUpd m it) → x ∈ aKeys m ∨ archItemKey it = some x := by
  intro m it x h
  unfold archItemUpd at h
  rw [archUpdate_aKeys] at h
  by_cases hm2 : it.2 ∈ aKeys m
  · rw [if_pos hm2] at h
    exact Or.inl h
  · rw [if_neg hm2] at h
    rcases List.mem_append.mp h with h1 | h1
    · exact Or.inl h1
    · simp at h1
      refine Or.inr ?_
      rw [h1]
      rfl

theorem archItem_nodup : ∀ (m : List (String × List String))
    (it : String × String),
    (aKeys m).Nodup → (aKeys (archItemUpd m it)).Nodup := by
  intro m it h
  unfold archItemUpd
  rw [archUpdate_aKeys]
  by_cases hm2 : it.2 ∈ aKeys m
  · rw [if_pos hm2]; exact h
  · rw [if_neg hm2]
    simp [List.nodup_append, h, hm2]

/-- Two per-file docker outputs contribute disjoint image keys. -/
def dockerImgDisjoint (a b : DockerFileOutput) : Prop :=
  ∀ k ∈ dockerImgKeys a, k ∉ dockerImgKeys b

theorem dockerImgDisjoint_symm : Symmetric dockerImgDisjoint :=
  fun _ _ h k hkb hka => h k hka hkb

/-- Two per-file docker outputs contribute disjoint arch-specific
lines. -/
def dockerArchDisjoint (a b : DockerFileOutput) : Prop :=
  ∀ k ∈ dockerArchKeys a, k ∉ dockerArchKeys b

theorem dockerArchDisjoint_symm : Symmetric dockerArchDisjoint :=
  fun _ _ h k hkb hka => h k hka hkb

theorem dockerCollectImages_blocks (l : List DockerFileOutput)
    (hp : l.Pairwise dockerImgDisjoint) :
    dockerCollectImages l = l.flatMap (fun o => (imgItems o).foldl imgItemUpd []) := by
  rw [dockerCollectImages_eq]
  rw [aFoldOutputs_blocks imgItemUpd imgItemKey imgItems imgItem_skip
    imgItem_split imgItem_keys l [] hp
    (by intro o _ k _ hmem; simp [aKeys] at hmem)]
  rfl

theorem dockerCollectArch_blocks (l : List DockerFileOutput)
    (hp : l.Pairwise dockerArchDisjoint) :
    dockerCollectArch l = l.flatMap (fun o => (archItems o).foldl archItemUpd []) := by
  rw [dockerCollectArch_eq]
  rw [aFoldOutputs_blocks archItemUpd archItemKey archItems archItem_skip
    archItem_split archItem_keys l [] hp
    (by intro o _ k _ hmem; simp [aKeys] at hmem)]
  rfl

theorem dockerCollectImages_nodup (l : List DockerFileOutput) :
    (aKeys (dockerCollectImages l)).Nodup := by
  rw [dockerCollectImages_eq]
  exact aFoldOutputs_nodup imgItemUpd imgItems imgItem_nodup l [] (by simp [aKeys])

theorem dockerCollectArch_nodup (l : List DockerFileOutput) :
    (aKeys (dockerCollectArch l)).Nodup := by
  rw [dockerCollectArch_eq]
  exact aFoldOutputs_nodup archItemUpd archItems archItem_nodup l [] (by simp [aKeys])

theorem pairKeyLe_total {β : Type} (p q : String × β) :
    pairKeyLe p q = true ∨ pairKeyLe q p = true := strLeB_total p.1 q.1

theorem pairKeyLe_trans {β : Type} (p q r : String × β)
    (h1 : pairKeyLe p q = true) (h2 : pairKeyLe q r = true) :
    pairKeyLe p r = true := strLeB_trans p.1 q.1 r.1 h1 h2

theorem sortLe_pairKeyLe_eq {β : Type} {m1 m2 : List (String × β)}
    (hp : List.Perm m1 m2) (hnd : (aKeys m1).Nodup) :
    sortLe pairKeyLe m1 = sortLe pairKeyLe m2 := by
  refine sortLe_eq_of_perm pairKeyLe pairKeyLe_total pairKeyLe_trans hp ?_
  intro p hpm q hqm h1 h2
  exact eq_of_mem_nodup_keys m1 hnd p hpm q hqm (strLeB_antisymm p.1 q.1 h1 h2)

/-- Permutation invariance of `DockerAnalyzer.aggregate_results` when no
two per-file outputs mention a common (normalized) base-image key or a
common arch-specific line. -/
theorem dockerAggregate_perm (reg : String → RegistryOracle)
    {l₁ l₂ : List DockerFileOutput} (hp : List.Perm l₁ l₂)
    (hdi : l₁.Pairwise dockerImgDisjoint) (hda : l₁.Pairwise dockerArchDisjoint) :
    dockerAggregate reg l₁ = dockerAggregate reg l₂ := by
  have hdi₂ : l₂.Pairwise dockerImgDisjoint :=
    (hp.pairwise_iff (fun hxy => dockerImgDisjoint_symm hxy)).mp hdi
  have hda₂ : l₂.Pairwise dockerArchDisjoint :=
    (hp.pairwise_iff (fun hxy => dockerArchDisjoint_symm hxy)).mp hda
  have hpi : List.Perm (dockerCollectImages l₁) (dockerCollectImages l₂) := by
    rw [dockerCollectImages_blocks l₁ hdi, dockerCollectImages_blocks l₂ hdi₂]
    exact hp.flatMap_right _
  have hpa : List.Perm (dockerCollectArch l₁) (dockerCollectArch l₂) := by
    rw [dockerCollectArch_blocks l₁ hda, dockerCollectArch_blocks l₂ hda₂]
    exact hp.flatMap_right _
  have h1 : sortLe pairKeyLe (dockerCollectImages l₁)
      = sortLe pairKeyLe (dockerCollectImages l₂) :=
    sortLe_pairKeyLe_eq hpi (dockerCollectImages_nodup l₁)
  have h2 : sortLe pairKeyLe (dockerCollectArch l₁)
      = sortLe pairKeyLe (dockerCollectArch l₂) :=
    sortLe_pairKeyLe_eq hpa (dockerCollectArch_nodup l₁)
  simp only [dockerAggregate]
  rw [h1, h2]

theorem depMessagesFor_recs_state_free (ft fp : String) (r : DepCheckResult)
    (hdir : ft = "python" → r.direct.getD true = true) (ds : List String) :
    (depMessagesFor ft fp ds r).2.1 = (depMessagesFor ft fp [] r).2.1 := by
  cases hc : r.compatible with
  | cfalse =>
      by_cases hft : (ft == "python") = true
      · have hd : r.direct.getD true = true := hdir (beq_iff_eq.mp hft)
        simp [depMessagesFor, hc, hft, hd]
      · simp [depMessagesFor, hc, hft]
  | cpart => simp [depMessagesFor, hc]
  | ctrue => simp [depMessagesFor, hc]
  | cunknown => simp [depMessagesFor, hc]
  | cerror => simp [depMessagesFor, hc]

theorem depFoldDeps_recs (checker : DepInfo → DepCheckResult) (ft fp : String)
    (hdir : ft = "python" → ∀ d, (checker d).direct.getD true = true) :
    ∀ (deps : List DepInfo) (st : DepAggState),
    (deps.foldl (depStepDep checker ft fp) st).recs
      = st.recs ++ deps.flatMap
          (fun dep => (depMessagesFor ft fp [] (checker (depWithFile dep fp))).2.1)
  | [], st => by simp
  | dep :: deps, st => by
      rw [List.foldl_cons,
        depFoldDeps_recs checker ft fp hdir deps (depStepDep checker ft fp st dep)]
      have hstep : (depStepDep checker ft fp st dep).recs
          = st.recs ++ (depMessagesFor ft fp [] (checker (depWithFile dep fp))).2.1 := by
        simp only [depStepDep]
        rw [depMessagesFor_recs_state_free ft fp (checker (depWithFile dep fp))
          (fun h => hdir h (depWithFile dep fp)) st.directSet]
      rw [hstep]
      simp

theorem depStepOutput_recs (cp cj : DepInfo → DepCheckResult)
    (hdir : ∀ d, (cp d).direct.getD true = true)
    (o : DepOutput) (st : DepAggState) :
    (depStepOutput cp cj st o).recs
      = st.recs ++ (depStepOutput cp cj {} o).recs := by
  by_cases h1 : o.file_type.getD "" = "" ∨ o.parsed_deps = []
  · rcases h1 with h | h <;> simp [depStepOutput, h]
  · obtain ⟨h1a, h1b⟩ := not_or.mp h1
    have hb : (o.parsed_deps == []) = false := by
      simp [h1b]
    by_cases hpy : o.file_type.getD "" = "python"
    · simp only [depStepOutput, hpy, hb,
        show (("python" == "") = false) from by decide, Bool.false_or,
        Bool.false_eq_true, if_false]
      show (List.foldl (depStepDep cp "python" o.file) st o.parsed_deps).recs
        = st.recs ++ (List.foldl (depStepDep cp "python" o.file)
            ({} : DepAggState) o.parsed_deps).recs
      rw [depFoldDeps_recs cp "python" o.file (fun _ => hdir) o.parsed_deps st,
        depFoldDeps_recs cp "python" o.file (fun _ => hdir) o.parsed_deps
          ({} : DepAggState)]
      simp
    · by_cases hjs : o.file_type.getD "" = "javascript"
      · simp only [depStepOutput, hjs, hb,
          show (("javascript" == "") = false) from by decide, Bool.false_or,
          Bool.false_eq_true, if_false]
        show (List.foldl (depStepDep cj "javascript" o.file) st o.parsed_deps).recs
          = st.recs ++ (List.foldl (depStepDep cj "javascript" o.file)
              ({} : DepAggState) o.parsed_deps).recs
        rw [depFoldDeps_recs cj "javascript" o.file
            (fun h => absurd h (by decide)) o.parsed_deps st,
          depFoldDeps_recs cj "javascript" o.file
            (fun h => absurd h (by decide)) o.parsed_deps ({} : DepAggState)]
        simp
      · simp [depStepOutput, hpy, hjs, h1a, h1b]

theorem depFoldOutputs_recs (cp cj : DepInfo → DepCheckResult)
    (hdir : ∀ d, (cp d).direct.getD true = true) :
    ∀ (l : List DepOutput) (st : DepAggState),
    (l.foldl (depStepOutput cp cj) st).recs
      = st.recs ++ l.flatMap (fun o => (depStepOutput cp cj {} o).recs)
  | [], st => by simp
  | o :: l, st => by
      rw [List.foldl_cons, depFoldOutputs_recs cp cj hdir l (depStepOutput cp cj st o),
        depStepOutput_recs cp cj hdir o st]
      simp

/-- Permutation invariance of `DependencyManager.aggregate_results`
recommendations when the python checker reports every dependency as
direct (the transitive-dependency messages are the only state-dependent
ones). -/
theorem depAggregate_perm_recs (cp cj : DepInfo → DepCheckResult)
    {l₁ l₂ : List DepOutput} (hp : List.Perm l₁ l₂)
    (hdir : ∀ d, (cp d).direct.getD true = true) :
    (depAggregate cp cj l₁).recommendations
      = (depAggregate cp cj l₂).recommendations := by
  have h₁ := depFoldOutputs_recs cp cj hdir l₁ {}
  have h₂ := depFoldOutputs_recs cp cj hdir l₂ {}
  show pySortedSet (l₁.foldl (depStepOutput cp cj) {}).recs
    = pySortedSet (l₂.foldl (depStepOutput cp cj) {}).recs
  rw [h₁, h₂]
  exact pySortedSet_eq_of_perm ((hp.flatMap_right _).append_left _)

instance tfDisjointDec (a b : TfRecord) : Decidable (tfDisjoint a b) :=
  inferInstanceAs (Decidable (∀ x ∈ tfTypesOf a, x ∉ tfTypesOf b))

instance dockerImgDisjointDec (a b : DockerFileOutput) :
    Decidable (dockerImgDisjoint a b) :=
  inferInstanceAs (Decidable (∀ k ∈ dockerImgKeys a, k ∉ dockerImgKeys b))

instance dockerArchDisjointDec (a b : DockerFileOutput) :
    Decidable (dockerArchDisjoint a b) :=
  inferInstanceAs (Decidable (∀ k ∈ dockerArchKeys a, k ∉ dockerArchKeys b))

def c8A : TfRecord :=
  { file := "a.tf", analysis := some { instance_types := ["t3.large"] } }

def c8B : TfRecord :=
  { file := "b.tf", analysis := some { instance_types := ["t3.large"] } }

def c8C : TfRecord :=
  { file := "b.tf", analysis := some { instance_types := ["m5.large"] } }

/-- Claim C8 (counterexample): aggregation recommendations are NOT
permutation-invariant as sets.  Two `.tf` files that both use
`t3.large` produce ONE replacement recommendation naming the file where
the type was first seen, so swapping the two per-file outputs changes
the recommendation set: with `a.tf` first the set contains the
recommendation naming `a.tf`; with `b.tf` first it does not. -/
theorem c8_counterexample :
    List.Perm [c8A, c8B] [c8B, c8A] ∧
    "Replace `t3.large` with `t4g.large` in `a.tf`"
      ∈ (tfAggregate [c8A, c8B]).recommendations ∧
    "Replace `t3.large` with `t4g.large` in `a.tf`"
      ∉ (tfAggregate [c8B, c8A]).recommendations := by
  refine ⟨List.Perm.swap c8B c8A [], by decide, by decide⟩

/-- Claim C8 (amended): aggregation recommendations are
permutation-invariant (indeed equal as lists) under the conditions that
make the first-encounter file paths embedded in them unambiguous: for
terraform, when no instance type occurs in two different per-file
outputs; for docker, when no normalized base-image key and no
arch-specific line occurs in two different per-file outputs; for the
dependency manager, when the python checker reports every dependency as
direct (the transitive-dependency messages are the only ones that read
the running `direct_python_incompatible` set). -/
theorem c8_amended
    {tfl₁ tfl₂ : List TfRecord} (htfp : List.Perm tfl₁ tfl₂)
    (htfd : tfl₁.Pairwise tfDisjoint)
    (reg : String → RegistryOracle) {dl₁ dl₂ : List DockerFileOutput}
    (hdp : List.Perm dl₁ dl₂) (hdi : dl₁.Pairwise dockerImgDisjoint)
    (hda : dl₁.Pairwise dockerArchDisjoint)
    (cp cj : DepInfo → DepCheckResult) {pl₁ pl₂ : List DepOutput}
    (hpp : List.Perm pl₁ pl₂) (hdir : ∀ d, (cp d).direct.getD true = true) :
    (tfAggregate tfl₁).recommendations = (tfAggregate tfl₂).recommendations ∧
    (dockerAggregate reg dl₁).recommendations
      = (dockerAggregate reg dl₂).recommendations ∧
    (depAggregate cp cj pl₁).recommendations
      = (depAggregate cp cj pl₂).recommendations :=
  ⟨tfAggregate_perm_recs htfp htfd,
   congrArg DockerAgg.recommendations (dockerAggregate_perm reg hdp hdi hda),
   depAggregate_perm_recs cp cj hpp hdir⟩

def c8D1 : DockerFileOutput :=
  { file := "Dockerfile",
    base_images_info := [{ name := "ubuntu:22.04", line := "FROM ubuntu:22.04" }],
    arch_specific_lines := ["RUN echo amd64"] }

def c8D2 : DockerFileOutput :=
  { file := "api/Dockerfile",
    base_images_info := [{ name := "alpine:3.19", line := "FROM alpine:3.19" }],
    arch_specific_lines := [] }

def c8P1 : DepOutput :=
  { parsed_deps := [{ name := some "requests" }], file_type := some "python",
    file := "requirements.txt" }

def c8P2 : DepOutput :=
  { parsed_deps := [{ name := some "left-pad" }], file_type := some "javascript",
    file := "package.json" }

def c8Reg : String → RegistryOracle := fun _ => { manifest := MResp.netError "offline" }

def c8CheckPy : DepInfo → DepCheckResult := fun _ => { direct := some true }

def c8CheckJs : DepInfo → DepCheckResult := fun _ => {}

/-- Witness for the amended C8 at concrete inputs. -/
theorem c8_amended_witness :
    (tfAggregate [c8A, c8C]).recommendations
      = (tfAggregate [c8C, c8A]).recommendations ∧
    (dockerAggregate c8Reg [c8D1, c8D2]).recommendations
      = (dockerAggregate c8Reg [c8D2, c8D1]).recommendations ∧
    (depAggregate c8CheckPy c8CheckJs [c8P1, c8P2]).recommendations
      = (depAggregate c8CheckPy c8CheckJs [c8P2, c8P1]).recommendations :=
  c8_amended (List.Perm.swap c8C c8A []) (by decide) c8Reg
    (List.Perm.swap c8D2 c8D1 []) (by decide) (by decide)
    c8CheckPy c8CheckJs (List.Perm.swap c8P2 c8P1 []) (fun _ => rfl)

end Spec2Proof
